import Mathlib

/-!
Verification development for the voxelland chunk streaming, meshing and
multiplayer core.

The Rust sources under verification are:
  src/src/chunk.rs                (ChunkSystem: slot pool, spatial index, mesher, generator)
  src/lib/src/game.rs             (Game::chunk_thread_inner_function: rebuild scheduler)
  src/binaries/server/src/main.rs (handle_client: network relay)

Modelling conventions:
  * i32 fields become Int, u32 / u8 / usize fields become Nat.
  * f64 noise arithmetic is carried out over the rationals; the Perlin
    samplers themselves come from the external noise crate and are kept
    abstract as parameters of a MeshEnv record.
  * Code of the repository that is referenced but not present under src/
    (Blocks, Cube, PackedVertex, server_types, the lib-side ChunkSystem
    persistence and set_block methods) is modelled from the spec; each such
    definition carries a doc comment saying so.
  * Concurrency is modelled by interleaving whole operations: every theorem
    is about the sequential semantics of the listed functions.
-/

/-- Integer pair used as a chunk coordinate, from src/src/vec.rs usage. -/
structure IVec2 where
  x : Int
  y : Int
deriving DecidableEq, Repr

/-- Integer triple used as a world voxel coordinate. -/
structure IVec3 where
  x : Int
  y : Int
  z : Int
deriving DecidableEq, Repr

instance : Add IVec3 := ⟨fun a b => ⟨a.x + b.x, a.y + b.y, a.z + b.z⟩⟩

/-- Component-wise addition of voxel coordinates, unfolded. -/
theorem IVec3.add_def (a b : IVec3) :
    a + b = ⟨a.x + b.x, a.y + b.y, a.z + b.z⟩ := rfl

/-- Environment of externally supplied functions used by ChunkSystem.
perlin3 and perlin2 stand for the noise crate Perlin.get on 3 and 2
coordinates.  is_transparent, is_semi_transparent and get_tex_coords stand
for Blocks (src/blockinfo.rs, not under src/); get_side and amb_occul_spots
stand for Cube (src/cube.rs, not under src/); pack stands for
PackedVertex::pack (src/packedvertex.rs, not under src/).  Modelled from the
spec: these are the block classification tables, the per-face vertex
templates (six vertices forming one quad, each carrying a local offset and
a base light value), the three corner-adjacent ambient occlusion probe
offsets per vertex, and the lossless vertex packing function. -/
structure MeshEnv where
  perlin3 : ℚ → ℚ → ℚ → ℚ
  perlin2 : ℚ → ℚ → ℚ
  is_transparent : Nat → Bool
  is_semi_transparent : Nat → Bool
  get_tex_coords : Nat → Nat → Nat × Nat
  get_side : Nat → List (Nat × Nat × Nat × Nat)
  amb_occul_spots : Nat → Nat → IVec3 × IVec3 × IVec3
  pack : Nat → Nat → Nat → Nat → Nat → Nat → Nat → Nat → Nat × Nat

namespace ChunkSystem

/-- Linear interpolation, from ChunkSystem::mix in src/src/chunk.rs. -/
def mix (a b t : ℚ) : ℚ := a * (1 - t) + b * t

/-- Terrain density, from ChunkSystem::noise_func in src/src/chunk.rs
(lines 268-316), with the two Perlin samplers abstract in the
environment. -/
def noise_func (env : MeshEnv) (spot : IVec3) : ℚ :=
  let y1 : Int := spot.y - 20
  let noise1 : ℚ :=
    max 0
      (20 + env.perlin3 ((spot.x : ℚ) / 25.35) ((y1 : ℚ) / 20.35)
            ((spot.z : ℚ) / 25.35) * 5
        - max ((y1 : ℚ) / 2 + env.perlin2 ((spot.x : ℚ) / 65) ((spot.z : ℚ) / 65) * 10) 0)
  let y2 : Int := y1 + 60
  let noise2 : ℚ :=
    max 0
      (50 + env.perlin3 ((spot.x : ℚ) / 55.35) ((y2 : ℚ) / 25.35)
            ((spot.z : ℚ) / 55.35) * 10
        + env.perlin3 ((spot.x : ℚ) / 25.35) ((y2 : ℚ) / 65.35)
            ((spot.z : ℚ) / 25.35) * 20
        - max ((y2 : ℚ) / 3) 0)
  let p0 : ℚ := env.perlin2 ((spot.x : ℚ) / 500) ((spot.z : ℚ) / 500) * 10
  let p1 : ℚ := max p0 0
  let p2 : ℚ := min p1 1
  mix noise1 noise2 (p2 * (1/2))

/-- World generator classification, from ChunkSystem::blockat in
src/src/chunk.rs (lines 346-370).  WL is the f32 constant 40.0 there;
the Rust casts (WL + 2.0) as i32 and WL as i32 are the literals 42
and 40 below. -/
def blockat (env : MeshEnv) (spot : IVec3) : Nat :=
  if noise_func env spot > 10 then
    if noise_func env (spot + ⟨0, 10, 0⟩) > 10 then 5
    else if spot.y > 42 ∨ noise_func env (spot + ⟨0, 5, 0⟩) > 10 then
      if noise_func env (spot + ⟨0, 1, 0⟩) < 10 then 3 else 4
    else 1
  else
    if spot.y < 40 then 2 else 0

end ChunkSystem

namespace ChunkSystem

/-- Pass-local memo of sampled block ids, modelling the
HashMap IVec3 u32 threaded through ChunkSystem::rebuild_index. -/
def Memo : Type := IVec3 → Option Nat

/-- Empty memo, modelling HashMap::new. -/
def Memo.empty : Memo := fun _ => none

/-- Memo insertion, modelling HashMap::insert. -/
def Memo.insert (m : Memo) (spot : IVec3) (b : Nat) : Memo :=
  fun s => if s = spot then some b else m s

/-- Memoised block sampler, from ChunkSystem::blockatmemo in
src/src/chunk.rs (lines 318-344). -/
def blockatmemo (env : MeshEnv) (spot : IVec3) (memo : Memo) : Nat × Memo :=
  match memo spot with
  | some b => (b, memo)
  | none =>
    let b := blockat env spot
    (b, memo.insert spot b)

/-- A memo is consistent when every cached id agrees with blockat. -/
def MemoOK (env : MeshEnv) (m : Memo) : Prop :=
  ∀ s b, m s = some b → b = blockat env s

theorem MemoOK.empty (env : MeshEnv) : MemoOK env Memo.empty := by
  intro s b h
  simp [Memo.empty] at h

theorem blockatmemo_fst (env : MeshEnv) (spot : IVec3) (m : Memo)
    (h : MemoOK env m) : (blockatmemo env spot m).1 = blockat env spot := by
  unfold blockatmemo
  cases hm : m spot with
  | none => rfl
  | some b => exact h spot b hm

theorem blockatmemo_ok (env : MeshEnv) (spot : IVec3) (m : Memo)
    (h : MemoOK env m) : MemoOK env (blockatmemo env spot m).2 := by
  unfold blockatmemo
  cases hm : m spot with
  | none =>
    intro s b hs
    simp only [Memo.insert] at hs
    split at hs
    · cases hs
      subst s
      rfl
    · exact h s b hs
  | some b => exact h

/-- Chunk width, the static CW in src/src/chunk.rs. -/
def CW : Nat := 15

/-- Chunk height, the static CH in src/src/chunk.rs. -/
def CH : Nat := 128

/-- Ambient occlusion falloff table, the static AMB_CHANGES
[0, 4, 6, 8] in src/src/chunk.rs (line 215), indexed by the number of
solid corner-adjacent probes. -/
def AMB_CHANGES : Nat → Nat
  | 0 => 0
  | 1 => 4
  | 2 => 6
  | _ => 8

/-- Wrapping u8 subtraction (release-mode semantics of the u8 subtraction
v[3] - AMB_CHANGES[amb_change] in src/src/chunk.rs line 233), for
arguments below 256. -/
def u8sub (a b : Nat) : Nat := (a + 256 - b) % 256

/-- The six face-adjacent neighbor offsets.  Modelled from the spec:
Cube::get_neighbors lives in src/cube.rs which is not under src/; the
spec fixes them as the six face-adjacent neighbors of a voxel. -/
def neighbors : Nat → IVec3
  | 0 => ⟨1, 0, 0⟩
  | 1 => ⟨-1, 0, 0⟩
  | 2 => ⟨0, 1, 0⟩
  | 3 => ⟨0, -1, 0⟩
  | 4 => ⟨0, 0, 1⟩
  | _ => ⟨0, 0, -1⟩

/-- The list of side indices walked by
Cube::get_neighbors().iter().enumerate(). -/
def sideIndices : List Nat := [0, 1, 2, 3, 4, 5]

/-- Emission condition of the transparent branch of
ChunkSystem::rebuild_index (src/src/chunk.rs lines 174-177): the neighbor
is empty, semi-transparent, or the voxel is water (id 2) bordering a
different transparent block. -/
def transFaceCond (env : MeshEnv) (block nb : Nat) : Bool :=
  nb == 0 || env.is_semi_transparent nb ||
    (block == 2 && nb != 2 && env.is_transparent nb)

/-- Emission condition of the opaque branch of ChunkSystem::rebuild_index
(src/src/chunk.rs lines 206-208): the neighbor is empty, transparent or
semi-transparent. -/
def solidFaceCond (env : MeshEnv) (nb : Nat) : Bool :=
  nb == 0 || env.is_transparent nb || env.is_semi_transparent nb

/-- The three ambient occlusion probe offsets of one vertex as a list. -/
def ambSpotsList (env : MeshEnv) (side ind : Nat) : List IVec3 :=
  let t := env.amb_occul_spots side ind
  [t.1, t.2.1, t.2.2]

/-- Number of solid blocks among the three corner-adjacent probes of a
vertex, pure form of the amb_change computation in src/src/chunk.rs
lines 219-224. -/
def ambCount (env : MeshEnv) (spot : IVec3) (side ind : Nat) : Nat :=
  (((ambSpotsList env side ind).map (fun v => blockat env (v + spot))).filter
    (fun b => b ≠ 0)).length

/-- Brightness of one opaque vertex: the base light v[3] minus the falloff
for its solid corner count, clamped into the valid range 0-16
(src/src/chunk.rs line 233). -/
def vertBrightness (env : MeshEnv) (spot : IVec3) (side ind light : Nat) : Nat :=
  min (u8sub light (AMB_CHANGES (ambCount env spot side ind))) 16

/-- One packed vertex of a transparent face (src/src/chunk.rs
lines 183-196): local position plus template offset, vertex index, raw
base light, and the texture atlas cell. -/
def transVertex (env : MeshEnv) (block i j k side : Nat)
    (ind : Nat) (v : Nat × Nat × Nat × Nat) : Nat × Nat :=
  let tex := env.get_tex_coords block side
  env.pack (i + v.1) (j + v.2.1) (k + v.2.2.1) ind v.2.2.2 0 tex.1 tex.2

/-- One packed vertex of an opaque face (src/src/chunk.rs lines 228-237):
like a transparent vertex but with the ambient-occlusion brightness. -/
def solidVertex (env : MeshEnv) (spot : IVec3) (block i j k side : Nat)
    (ind : Nat) (v : Nat × Nat × Nat × Nat) : Nat × Nat :=
  let tex := env.get_tex_coords block side
  env.pack (i + v.1) (j + v.2.1) (k + v.2.2.1) ind
    (vertBrightness env spot side ind v.2.2.2) 0 tex.1 tex.2

/-- Packed data appended for one visible face: the side template vertices
in enumeration order. -/
def faceVerts (vert : Nat → Nat × Nat × Nat × Nat → Nat × Nat)
    (side : List (Nat × Nat × Nat × Nat)) : List Nat × List Nat :=
  let packed := side.enum.map (fun p => vert p.1 p.2)
  (packed.map Prod.fst, packed.map Prod.snd)

/-- Pure contribution of one face of a transparent voxel: the quad when
the transparent emission condition holds, nothing otherwise. -/
def transFace (env : MeshEnv) (spot : IVec3) (block i j k side : Nat) :
    List Nat × List Nat :=
  let nb := blockat env (spot + neighbors side)
  if transFaceCond env block nb then
    faceVerts (transVertex env block i j k side) (env.get_side side)
  else ([], [])

/-- Pure contribution of one face of an opaque voxel: the quad (with
ambient occlusion brightness) when the opaque emission condition holds,
nothing otherwise. -/
def solidFace (env : MeshEnv) (spot : IVec3) (block i j k side : Nat) :
    List Nat × List Nat :=
  let nb := blockat env (spot + neighbors side)
  if solidFaceCond env nb then
    faceVerts (solidVertex env spot block i j k side) (env.get_side side)
  else ([], [])

/-- The vertex streams of one chunk geometry slot: opaque data32/data8 and
transparent tdata32/tdata8, as in ChunkGeo. -/
structure GeoData where
  data32 : List Nat
  data8 : List Nat
  tdata32 : List Nat
  tdata8 : List Nat
deriving DecidableEq, Repr

/-- Empty geometry, as produced by ChunkGeo::clear. -/
def GeoData.empty : GeoData := ⟨[], [], [], []⟩

/-- Concatenation of geometry streams. -/
def GeoData.append (a b : GeoData) : GeoData :=
  ⟨a.data32 ++ b.data32, a.data8 ++ b.data8,
   a.tdata32 ++ b.tdata32, a.tdata8 ++ b.tdata8⟩

theorem GeoData.append_empty (a : GeoData) : a.append GeoData.empty = a := by
  simp [GeoData.append, GeoData.empty]

theorem GeoData.empty_append (a : GeoData) : GeoData.empty.append a = a := by
  simp [GeoData.append, GeoData.empty]

theorem GeoData.append_assoc (a b c : GeoData) :
    (a.append b).append c = a.append (b.append c) := by
  simp [GeoData.append]

/-- Flatten a list of geometry contributions in order. -/
def GeoData.joinList : List GeoData → GeoData
  | [] => GeoData.empty
  | g :: gs => g.append (GeoData.joinList gs)

/-- Pure contribution of one voxel (src/src/chunk.rs lines 163-248):
nothing for air, transparent quads into the transparent streams for
transparent or semi-transparent blocks, opaque quads into the opaque
streams otherwise. -/
def meshVoxelPure (env : MeshEnv) (spot : IVec3) (i j k : Nat) : GeoData :=
  let block := blockat env spot
  if block = 0 then GeoData.empty
  else if env.is_transparent block || env.is_semi_transparent block then
    let parts := sideIndices.map (fun s => transFace env spot block i j k s)
    ⟨[], [], (parts.map Prod.fst).flatten, (parts.map Prod.snd).flatten⟩
  else
    let parts := sideIndices.map (fun s => solidFace env spot block i j k s)
    ⟨(parts.map Prod.fst).flatten, (parts.map Prod.snd).flatten, [], []⟩

/-- World coordinate of the local voxel (i, j, k) of the chunk at cpos,
 as computed at src/src/chunk.rs lines 163-167. -/
def worldSpot (cpos : IVec2) (i j k : Nat) : IVec3 :=
  ⟨cpos.x * (CW : Int) + i, j, cpos.y * (CW : Int) + k⟩

/-- Voxel visit order of the rebuild loops: i outermost, then k, then j. -/
def chunkSpots : List (Nat × Nat × Nat) :=
  (List.range CW).flatMap (fun i =>
    (List.range CW).flatMap (fun k =>
      (List.range CH).map (fun j => (i, k, j))))

/-- Pure meshing of a whole chunk: the concatenation of all per-voxel
contributions in loop order. -/
def meshChunkPure (env : MeshEnv) (cpos : IVec2) : GeoData :=
  GeoData.joinList (chunkSpots.map (fun t =>
    meshVoxelPure env (worldSpot cpos t.1 t.2.2 t.2.1) t.1 t.2.2 t.2.1))

/-- Solid probe count with the pass memo threaded through, modelling the
amb_spots.iter().map(blockatmemo).filter(nonzero).count() pipeline of
src/src/chunk.rs lines 221-224. -/
def ambCountMemo (env : MeshEnv) (spot : IVec3) :
    List IVec3 → Memo → Nat × Memo
  | [], m => (0, m)
  | v :: rest, m =>
    let r1 := blockatmemo env (v + spot) m
    let r2 := ambCountMemo env spot rest r1.2
    ((if r1.1 ≠ 0 then 1 else 0) + r2.1, r2.2)

/-- Vertices of one opaque face with the memo threaded through the
ambient occlusion probes, modelling the side.chunks(4).enumerate() loop
of src/src/chunk.rs lines 214-240. -/
def solidFaceVertsMemo (env : MeshEnv) (spot : IVec3) (block i j k side : Nat) :
    List (Nat × (Nat × Nat × Nat × Nat)) → Memo → (List Nat × List Nat) × Memo
  | [], m => (([], []), m)
  | (ind, v) :: rest, m =>
    let rc := ambCountMemo env spot (ambSpotsList env side ind) m
    let tex := env.get_tex_coords block side
    let pk := env.pack (i + v.1) (j + v.2.1) (k + v.2.2.1) ind
      (min (u8sub v.2.2.2 (AMB_CHANGES rc.1)) 16) 0 tex.1 tex.2
    let rr := solidFaceVertsMemo env spot block i j k side rest rc.2
    ((pk.1 :: rr.1.1, pk.2 :: rr.1.2), rr.2)

/-- Opaque branch of the per-voxel face loop with the memo threaded
through, modelling src/src/chunk.rs lines 203-245. -/
def solidFacesMemo (env : MeshEnv) (spot : IVec3) (block i j k : Nat) :
    List Nat → Memo → (List Nat × List Nat) × Memo
  | [], m => (([], []), m)
  | side :: rest, m =>
    let rn := blockatmemo env (spot + neighbors side) m
    if solidFaceCond env rn.1 then
      let rv := solidFaceVertsMemo env spot block i j k side
        (env.get_side side).enum rn.2
      let rr := solidFacesMemo env spot block i j k rest rv.2
      ((rv.1.1 ++ rr.1.1, rv.1.2 ++ rr.1.2), rr.2)
    else
      solidFacesMemo env spot block i j k rest rn.2

/-- Transparent branch of the per-voxel face loop with the memo threaded
through, modelling src/src/chunk.rs lines 171-201 (transparent vertices
perform no further sampling). -/
def transFacesMemo (env : MeshEnv) (spot : IVec3) (block i j k : Nat) :
    List Nat → Memo → (List Nat × List Nat) × Memo
  | [], m => (([], []), m)
  | side :: rest, m =>
    let rn := blockatmemo env (spot + neighbors side) m
    if transFaceCond env block rn.1 then
      let vs := faceVerts (transVertex env block i j k side) (env.get_side side)
      let rr := transFacesMemo env spot block i j k rest rn.2
      ((vs.1 ++ rr.1.1, vs.2 ++ rr.1.2), rr.2)
    else
      transFacesMemo env spot block i j k rest rn.2

/-- Contribution of one voxel with the memo threaded through, modelling
src/src/chunk.rs lines 163-248. -/
def meshVoxelMemo (env : MeshEnv) (spot : IVec3) (i j k : Nat) (m : Memo) :
    GeoData × Memo :=
  let rb := blockatmemo env spot m
  if rb.1 = 0 then (GeoData.empty, rb.2)
  else if env.is_transparent rb.1 || env.is_semi_transparent rb.1 then
    let rt := transFacesMemo env spot rb.1 i j k sideIndices rb.2
    (⟨[], [], rt.1.1, rt.1.2⟩, rt.2)
  else
    let rs := solidFacesMemo env spot rb.1 i j k sideIndices rb.2
    (⟨rs.1.1, rs.1.2, [], []⟩, rs.2)

/-- The voxel loop nest of ChunkSystem::rebuild_index: process voxels in
order, threading the memo and appending into the cleared streams. -/
def meshSpotsMemo (env : MeshEnv) (cpos : IVec2) :
    List (Nat × Nat × Nat) → Memo → GeoData → GeoData
  | [], _, acc => acc
  | (i, k, j) :: rest, m, acc =>
    let rg := meshVoxelMemo env (worldSpot cpos i j k) i j k m
    meshSpotsMemo env cpos rest rg.2 (acc.append rg.1)

/-- Geometry produced by one rebuild of the chunk at cpos: the meshing
part of ChunkSystem::rebuild_index (src/src/chunk.rs lines 155-251),
starting from a fresh memo and cleared streams. -/
def meshChunk (env : MeshEnv) (cpos : IVec2) : GeoData :=
  meshSpotsMemo env cpos chunkSpots Memo.empty GeoData.empty

theorem ambCountMemo_spec (env : MeshEnv) (spot : IVec3) :
    ∀ (l : List IVec3) (m : Memo), MemoOK env m →
      (ambCountMemo env spot l m).1 =
        ((l.map (fun v => blockat env (v + spot))).filter (fun b => b ≠ 0)).length ∧
      MemoOK env (ambCountMemo env spot l m).2 := by
  intro l
  induction l with
  | nil => intro m hm; exact ⟨rfl, hm⟩
  | cons v rest ih =>
    intro m hm
    have h1 := blockatmemo_fst env (v + spot) m hm
    have h2 := blockatmemo_ok env (v + spot) m hm
    obtain ⟨ihl, ihm⟩ := ih (blockatmemo env (v + spot) m).2 h2
    constructor
    · simp only [ambCountMemo, ihl, h1, List.map_cons, List.filter_cons]
      by_cases hz : blockat env (v + spot) = 0
      · simp [hz]
      · simp [hz]
        omega
    · exact ihm

theorem solidFaceVertsMemo_spec (env : MeshEnv) (spot : IVec3)
    (block i j k side : Nat) :
    ∀ (l : List (Nat × (Nat × Nat × Nat × Nat))) (m : Memo), MemoOK env m →
      (solidFaceVertsMemo env spot block i j k side l m).1 =
        ((l.map (fun p => solidVertex env spot block i j k side p.1 p.2)).map Prod.fst,
         (l.map (fun p => solidVertex env spot block i j k side p.1 p.2)).map Prod.snd) ∧
      MemoOK env (solidFaceVertsMemo env spot block i j k side l m).2 := by
  intro l
  induction l with
  | nil => intro m hm; exact ⟨rfl, hm⟩
  | cons p rest ih =>
    obtain ⟨ind, v⟩ := p
    intro m hm
    obtain ⟨hc, hm1⟩ := ambCountMemo_spec env spot (ambSpotsList env side ind) m hm
    obtain ⟨ihl, ihm⟩ := ih _ hm1
    constructor
    · simp only [solidFaceVertsMemo, ihl, hc, List.map_cons]
      simp [solidVertex, vertBrightness, ambCount]
    · exact ihm

theorem solidFacesMemo_spec (env : MeshEnv) (spot : IVec3) (block i j k : Nat) :
    ∀ (sides : List Nat) (m : Memo), MemoOK env m →
      (solidFacesMemo env spot block i j k sides m).1 =
        (((sides.map (fun s => solidFace env spot block i j k s)).map Prod.fst).flatten,
         ((sides.map (fun s => solidFace env spot block i j k s)).map Prod.snd).flatten) ∧
      MemoOK env (solidFacesMemo env spot block i j k sides m).2 := by
  intro sides
  induction sides with
  | nil => intro m hm; exact ⟨rfl, hm⟩
  | cons side rest ih =>
    intro m hm
    have h1 := blockatmemo_fst env (spot + neighbors side) m hm
    have h2 := blockatmemo_ok env (spot + neighbors side) m hm
    obtain ⟨ihl, ihm⟩ := ih _ h2
    constructor
    · simp only [solidFacesMemo, h1]
      by_cases hcond : solidFaceCond env (blockat env (spot + neighbors side)) = true
      · obtain ⟨hvl, _⟩ := solidFaceVertsMemo_spec env spot block i j k side
          (env.get_side side).enum (blockatmemo env (spot + neighbors side) m).2 h2
        have harg : (solidFacesMemo env spot block i j k rest
            (solidFaceVertsMemo env spot block i j k side (env.get_side side).enum
              (blockatmemo env (spot + neighbors side) m).2).2).1 =
            (((rest.map (fun s => solidFace env spot block i j k s)).map Prod.fst).flatten,
             ((rest.map (fun s => solidFace env spot block i j k s)).map Prod.snd).flatten) :=
          (ih _ (solidFaceVertsMemo_spec env spot block i j k side
            (env.get_side side).enum _ h2).2).1
        simp only [if_pos hcond, hvl, harg, List.map_cons, List.flatten_cons]
        simp [solidFace, if_pos hcond, faceVerts]
      · have hargn := (ih _ h2).1
        simp only [if_neg hcond, hargn, List.map_cons, List.flatten_cons]
        simp [solidFace, if_neg hcond]
    · simp only [solidFacesMemo, h1]
      by_cases hcond : solidFaceCond env (blockat env (spot + neighbors side)) = true
      · have hv2 := (solidFaceVertsMemo_spec env spot block i j k side
          (env.get_side side).enum _ h2).2
        simp only [if_pos hcond]
        exact (ih _ hv2).2
      · simp only [if_neg hcond]
        exact ihm

theorem transFacesMemo_spec (env : MeshEnv) (spot : IVec3) (block i j k : Nat) :
    ∀ (sides : List Nat) (m : Memo), MemoOK env m →
      (transFacesMemo env spot block i j k sides m).1 =
        (((sides.map (fun s => transFace env spot block i j k s)).map Prod.fst).flatten,
         ((sides.map (fun s => transFace env spot block i j k s)).map Prod.snd).flatten) ∧
      MemoOK env (transFacesMemo env spot block i j k sides m).2 := by
  intro sides
  induction sides with
  | nil => intro m hm; exact ⟨rfl, hm⟩
  | cons side rest ih =>
    intro m hm
    have h1 := blockatmemo_fst env (spot + neighbors side) m hm
    have h2 := blockatmemo_ok env (spot + neighbors side) m hm
    obtain ⟨ihl, ihm⟩ := ih _ h2
    constructor
    · simp only [transFacesMemo, h1]
      by_cases hcond : transFaceCond env block (blockat env (spot + neighbors side)) = true
      · simp only [if_pos hcond, ihl, List.map_cons, List.flatten_cons]
        simp [transFace, if_pos hcond]
      · simp only [if_neg hcond, ihl, List.map_cons, List.flatten_cons]
        simp [transFace, if_neg hcond]
    · simp only [transFacesMemo, h1]
      by_cases hcond : transFaceCond env block (blockat env (spot + neighbors side)) = true
      · simp only [if_pos hcond]
        exact ihm
      · simp only [if_neg hcond]
        exact ihm

theorem meshVoxelMemo_spec (env : MeshEnv) (spot : IVec3) (i j k : Nat)
    (m : Memo) (hm : MemoOK env m) :
    (meshVoxelMemo env spot i j k m).1 = meshVoxelPure env spot i j k ∧
    MemoOK env (meshVoxelMemo env spot i j k m).2 := by
  have h1 := blockatmemo_fst env spot m hm
  have h2 := blockatmemo_ok env spot m hm
  have hs := solidFacesMemo_spec env spot (blockat env spot) i j k sideIndices _ h2
  have ht := transFacesMemo_spec env spot (blockat env spot) i j k sideIndices _ h2
  by_cases hz : blockat env spot = 0
  · constructor
    · simp [meshVoxelMemo, meshVoxelPure, h1, hz]
    · simp only [meshVoxelMemo, h1, hz, if_pos]
      simpa using h2
  · by_cases htr : (env.is_transparent (blockat env spot) ||
        env.is_semi_transparent (blockat env spot)) = true
    · constructor
      · simp [meshVoxelMemo, meshVoxelPure, h1, hz, htr, ht.1]
      · simp only [meshVoxelMemo, h1]
        simpa [hz, htr] using ht.2
    · constructor
      · simp [meshVoxelMemo, meshVoxelPure, h1, hz, htr, hs.1]
      · simp only [meshVoxelMemo, h1]
        simpa [hz, htr] using hs.2

theorem meshSpotsMemo_spec (env : MeshEnv) (cpos : IVec2) :
    ∀ (l : List (Nat × Nat × Nat)) (m : Memo) (acc : GeoData), MemoOK env m →
      meshSpotsMemo env cpos l m acc =
        acc.append (GeoData.joinList (l.map (fun t =>
          meshVoxelPure env (worldSpot cpos t.1 t.2.2 t.2.1) t.1 t.2.2 t.2.1))) := by
  intro l
  induction l with
  | nil =>
    intro m acc _
    simp [meshSpotsMemo, GeoData.joinList, GeoData.append_empty]
  | cons t rest ih =>
    obtain ⟨i, k, j⟩ := t
    intro m acc hm
    obtain ⟨hv, hm2⟩ := meshVoxelMemo_spec env (worldSpot cpos i j k) i j k m hm
    simp only [meshSpotsMemo, List.map_cons, GeoData.joinList]
    rw [ih _ _ hm2, hv, GeoData.append_assoc]

/-- The memoised rebuild meshing computes exactly the pure per-voxel
meshing: the pass-local memo never changes any sampled value. -/
theorem meshChunk_eq_pure (env : MeshEnv) (cpos : IVec2) :
    meshChunk env cpos = meshChunkPure env cpos := by
  unfold meshChunk meshChunkPure
  rw [meshSpotsMemo_spec env cpos chunkSpots Memo.empty GeoData.empty (MemoOK.empty env),
    GeoData.empty_append]

/-- Face-visibility specification of one voxel face, packaging what claim
C7 states about the emission rule of rebuild_index. -/
def FaceEmissionSpec (env : MeshEnv) (spot : IVec3) (i j k side : Nat) : Prop :=
  (blockat env spot ≠ 0 →
    env.is_transparent (blockat env spot) = false →
    env.is_semi_transparent (blockat env spot) = false →
    (((solidFace env spot (blockat env spot) i j k side).1 ≠ [] ↔
        (blockat env (spot + neighbors side) = 0 ∨
         env.is_transparent (blockat env (spot + neighbors side)) = true ∨
         env.is_semi_transparent (blockat env (spot + neighbors side)) = true)) ∧
     ((solidFace env spot (blockat env spot) i j k side).1 ≠ [] →
        (solidFace env spot (blockat env spot) i j k side).1.length = 6 ∧
        (solidFace env spot (blockat env spot) i j k side).2.length = 6) ∧
     (meshVoxelPure env spot i j k).tdata32 = [] ∧
     (meshVoxelPure env spot i j k).tdata8 = [] ∧
     (meshVoxelPure env spot i j k).data32 =
       (sideIndices.map (fun s => (solidFace env spot (blockat env spot) i j k s).1)).flatten ∧
     (meshVoxelPure env spot i j k).data8 =
       (sideIndices.map (fun s => (solidFace env spot (blockat env spot) i j k s).2)).flatten)) ∧
  (blockat env spot ≠ 0 →
    (env.is_transparent (blockat env spot) = true ∨
     env.is_semi_transparent (blockat env spot) = true) →
    (((transFace env spot (blockat env spot) i j k side).1 ≠ [] ↔
        (blockat env (spot + neighbors side) = 0 ∨
         env.is_semi_transparent (blockat env (spot + neighbors side)) = true ∨
         (blockat env spot = 2 ∧ blockat env (spot + neighbors side) ≠ 2 ∧
          env.is_transparent (blockat env (spot + neighbors side)) = true))) ∧
     ((transFace env spot (blockat env spot) i j k side).1 ≠ [] →
        (transFace env spot (blockat env spot) i j k side).1.length = 6 ∧
        (transFace env spot (blockat env spot) i j k side).2.length = 6) ∧
     (meshVoxelPure env spot i j k).data32 = [] ∧
     (meshVoxelPure env spot i j k).data8 = [] ∧
     (meshVoxelPure env spot i j k).tdata32 =
       (sideIndices.map (fun s => (transFace env spot (blockat env spot) i j k s).1)).flatten ∧
     (meshVoxelPure env spot i j k).tdata8 =
       (sideIndices.map (fun s => (transFace env spot (blockat env spot) i j k s).2)).flatten))

theorem faceVerts_fst_length (vert : Nat → Nat × Nat × Nat × Nat → Nat × Nat)
    (side : List (Nat × Nat × Nat × Nat)) :
    (faceVerts vert side).1.length = side.length := by
  simp [faceVerts]

theorem faceVerts_snd_length (vert : Nat → Nat × Nat × Nat × Nat → Nat × Nat)
    (side : List (Nat × Nat × Nat × Nat)) :
    (faceVerts vert side).2.length = side.length := by
  simp [faceVerts]

theorem solidFaceCond_iff (env : MeshEnv) (nb : Nat) :
    solidFaceCond env nb = true ↔
      (nb = 0 ∨ env.is_transparent nb = true ∨ env.is_semi_transparent nb = true) := by
  simp [solidFaceCond]
  tauto

theorem transFaceCond_iff (env : MeshEnv) (block nb : Nat) :
    transFaceCond env block nb = true ↔
      (nb = 0 ∨ env.is_semi_transparent nb = true ∨
        (block = 2 ∧ nb ≠ 2 ∧ env.is_transparent nb = true)) := by
  simp [transFaceCond]
  tauto

/-- Ambient occlusion specification for the vertices of opaque faces,
packaging what claim C8 states: three corner probes per vertex, a solid
count of at most 3, the falloff-table deduction, and a final brightness
inside the valid range 0-16. -/
def AmbOcclusionSpec (env : MeshEnv) (spot : IVec3) (block i j k side : Nat) : Prop :=
  (∀ ind, (ambSpotsList env side ind).length = 3) ∧
  (∀ ind, ambCount env spot side ind ≤ 3) ∧
  (∀ ind light, vertBrightness env spot side ind light ≤ 16) ∧
  (∀ ind light, AMB_CHANGES (ambCount env spot side ind) ≤ light → light < 256 →
      vertBrightness env spot side ind light =
        min (light - AMB_CHANGES (ambCount env spot side ind)) 16) ∧
  (∀ ind v, solidVertex env spot block i j k side ind v =
      env.pack (i + v.1) (j + v.2.1) (k + v.2.2.1) ind
        (vertBrightness env spot side ind v.2.2.2) 0
        (env.get_tex_coords block side).1 (env.get_tex_coords block side).2)

end ChunkSystem

/-- Sample environment with trivial Perlin samplers, water (id 2) as the
only transparent block, no semi-transparent blocks, a six-vertex face
template with base light 14, fixed ambient probes one layer up, and an
injective packing; used to instantiate hypotheses at concrete inputs. -/
def sampleEnv : MeshEnv where
  perlin3 := fun _ _ _ => 0
  perlin2 := fun _ _ => 0
  is_transparent := fun b => b == 2
  is_semi_transparent := fun _ => false
  get_tex_coords := fun _ _ => (0, 0)
  get_side := fun _ =>
    [(0, 0, 0, 14), (1, 0, 0, 14), (1, 1, 0, 14),
     (1, 1, 0, 14), (0, 1, 0, 14), (0, 0, 0, 14)]
  amb_occul_spots := fun _ _ => (⟨1, 1, 0⟩, ⟨1, 1, 1⟩, ⟨0, 1, 1⟩)
  pack := fun x y z ind l _ tx ty =>
    (x + 16 * y + 4096 * z + 65536 * ind + 1048576 * l, tx + 16 * ty)

/-- Claim C10: for every coordinate, blockat returns one of exactly six
block ids 0 (air), 1, 2 (water), 3, 4, 5; ids 0 and 2 are returned exactly
when the density noise_func is at or below the solidity threshold 10, with
2 exactly when the coordinate height is below the water line 40 and 0
otherwise. -/
theorem blockat_classification_total (env : MeshEnv) (spot : IVec3) :
    (ChunkSystem.blockat env spot = 0 ∨ ChunkSystem.blockat env spot = 1 ∨
     ChunkSystem.blockat env spot = 2 ∨ ChunkSystem.blockat env spot = 3 ∨
     ChunkSystem.blockat env spot = 4 ∨ ChunkSystem.blockat env spot = 5) ∧
    ((ChunkSystem.blockat env spot = 0 ∨ ChunkSystem.blockat env spot = 2) ↔
      ChunkSystem.noise_func env spot ≤ 10) ∧
    (ChunkSystem.noise_func env spot ≤ 10 →
      (ChunkSystem.blockat env spot = 2 ↔ spot.y < 40)) := by
  unfold ChunkSystem.blockat
  constructor
  · split_ifs <;> simp
  constructor
  · constructor
    · intro h
      by_contra hgt
      push_neg at hgt
      rw [if_pos hgt] at h
      rcases h with h | h <;> revert h <;> split_ifs <;> simp
    · intro hle
      have hngt : ¬ ChunkSystem.noise_func env spot > 10 := not_lt.mpr hle
      simp only [if_neg hngt]
      split_ifs <;> simp
  · intro hle
    have hngt : ¬ ChunkSystem.noise_func env spot > 10 := not_lt.mpr hle
    simp only [if_neg hngt]
    split_ifs with h <;> simp [h]

/-- Claim C7: for every voxel and each of its 6 faces, an opaque voxel
emits a quad into the opaque stream if and only if the neighbor across
that face is empty, transparent or semi-transparent; a transparent or
semi-transparent voxel emits a quad into the transparent stream if and
only if the neighbor is empty, semi-transparent, or (for the water voxel
id 2) a different transparent type; each emitted visible face contributes
exactly one quad of 6 vertices, with no merging of adjacent voxels. -/
theorem mesher_face_visibility (env : MeshEnv) (spot : IVec3) (i j k side : Nat)
    (hside : (env.get_side side).length = 6) :
    ChunkSystem.FaceEmissionSpec env spot i j k side := by
  unfold ChunkSystem.FaceEmissionSpec
  have hso := ChunkSystem.solidFaceCond_iff env
    (ChunkSystem.blockat env (spot + ChunkSystem.neighbors side))
  have htc := ChunkSystem.transFaceCond_iff env (ChunkSystem.blockat env spot)
    (ChunkSystem.blockat env (spot + ChunkSystem.neighbors side))
  constructor
  · intro hz h1 h2
    have hb : (env.is_transparent (ChunkSystem.blockat env spot) ||
        env.is_semi_transparent (ChunkSystem.blockat env spot)) = false := by
      simp [h1, h2]
    have hmesh : ChunkSystem.meshVoxelPure env spot i j k =
        ⟨((ChunkSystem.sideIndices.map (fun s =>
            ChunkSystem.solidFace env spot (ChunkSystem.blockat env spot) i j k s)).map
              Prod.fst).flatten,
         ((ChunkSystem.sideIndices.map (fun s =>
            ChunkSystem.solidFace env spot (ChunkSystem.blockat env spot) i j k s)).map
              Prod.snd).flatten, [], []⟩ := by
      simp [ChunkSystem.meshVoxelPure, hz, hb]
    refine ⟨?_, ?_, ?_, ?_, ?_, ?_⟩
    · unfold ChunkSystem.solidFace
      by_cases hc : ChunkSystem.solidFaceCond env
          (ChunkSystem.blockat env (spot + ChunkSystem.neighbors side)) = true
      · rw [if_pos hc]
        refine iff_of_true ?_ (hso.mp hc)
        have hlen := ChunkSystem.faceVerts_fst_length
          (ChunkSystem.solidVertex env spot (ChunkSystem.blockat env spot) i j k side)
          (env.get_side side)
        rw [hside] at hlen
        intro hnil
        rw [hnil] at hlen
        simp at hlen
      · rw [if_neg hc]
        refine iff_of_false (by simp) ?_
        intro hr
        exact hc (hso.mpr hr)
    · intro hne
      unfold ChunkSystem.solidFace at hne ⊢
      by_cases hc : ChunkSystem.solidFaceCond env
          (ChunkSystem.blockat env (spot + ChunkSystem.neighbors side)) = true
      · rw [if_pos hc]
        constructor
        · rw [ChunkSystem.faceVerts_fst_length, hside]
        · rw [ChunkSystem.faceVerts_snd_length, hside]
      · rw [if_neg hc] at hne
        simp at hne
    · rw [hmesh]
    · rw [hmesh]
    · rw [hmesh]
      simp only [List.map_map]
      rfl
    · rw [hmesh]
      simp only [List.map_map]
      rfl
  · intro hz ht
    have hb : (env.is_transparent (ChunkSystem.blockat env spot) ||
        env.is_semi_transparent (ChunkSystem.blockat env spot)) = true := by
      rcases ht with ht | ht <;> simp [ht]
    have hmesh : ChunkSystem.meshVoxelPure env spot i j k =
        ⟨[], [],
         ((ChunkSystem.sideIndices.map (fun s =>
            ChunkSystem.transFace env spot (ChunkSystem.blockat env spot) i j k s)).map
              Prod.fst).flatten,
         ((ChunkSystem.sideIndices.map (fun s =>
            ChunkSystem.transFace env spot (ChunkSystem.blockat env spot) i j k s)).map
              Prod.snd).flatten⟩ := by
      simp [ChunkSystem.meshVoxelPure, hz, hb]
    refine ⟨?_, ?_, ?_, ?_, ?_, ?_⟩
    · unfold ChunkSystem.transFace
      by_cases hc : ChunkSystem.transFaceCond env (ChunkSystem.blockat env spot)
          (ChunkSystem.blockat env (spot + ChunkSystem.neighbors side)) = true
      · rw [if_pos hc]
        refine iff_of_true ?_ (htc.mp hc)
        have hlen := ChunkSystem.faceVerts_fst_length
          (ChunkSystem.transVertex env (ChunkSystem.blockat env spot) i j k side)
          (env.get_side side)
        rw [hside] at hlen
        intro hnil
        rw [hnil] at hlen
        simp at hlen
      · rw [if_neg hc]
        refine iff_of_false (by simp) ?_
        intro hr
        exact hc (htc.mpr hr)
    · intro hne
      unfold ChunkSystem.transFace at hne ⊢
      by_cases hc : ChunkSystem.transFaceCond env (ChunkSystem.blockat env spot)
          (ChunkSystem.blockat env (spot + ChunkSystem.neighbors side)) = true
      · rw [if_pos hc]
        constructor
        · rw [ChunkSystem.faceVerts_fst_length, hside]
        · rw [ChunkSystem.faceVerts_snd_length, hside]
      · rw [if_neg hc] at hne
        simp at hne
    · rw [hmesh]
    · rw [hmesh]
    · rw [hmesh]
      simp only [List.map_map]
      rfl
    · rw [hmesh]
      simp only [List.map_map]
      rfl

/-- Witness for C7 at the sample environment: the six-vertex face template
hypothesis holds and the face-visibility specification follows at the
voxel (0,0,0), side 0. -/
theorem mesher_face_visibility_witness :
    (sampleEnv.get_side 0).length = 6 ∧
    ChunkSystem.FaceEmissionSpec sampleEnv ⟨0, 0, 0⟩ 0 0 0 0 :=
  ⟨by decide, mesher_face_visibility sampleEnv ⟨0, 0, 0⟩ 0 0 0 0 (by decide)⟩

/-- Claim C8: for every vertex of every emitted opaque face the mesher
counts the solid blocks among the vertex's 3 corner-adjacent probes (a
count in 0-3), maps the count through the fixed falloff table
AMB_CHANGES, subtracts the deduction from the base light level and clamps
into the valid brightness range, so every packed vertex brightness lies
within 0-16. -/
theorem mesher_ambient_occlusion (env : MeshEnv) (spot : IVec3)
    (block i j k side : Nat) :
    ChunkSystem.AmbOcclusionSpec env spot block i j k side := by
  refine ⟨?_, ?_, ?_, ?_, ?_⟩
  · intro ind
    simp [ChunkSystem.ambSpotsList]
  · intro ind
    have h := List.length_filter_le (fun b => decide (b ≠ 0))
      ((ChunkSystem.ambSpotsList env side ind).map
        (fun v => ChunkSystem.blockat env (v + spot)))
    simp only [List.length_map] at h
    calc ChunkSystem.ambCount env spot side ind
        ≤ (ChunkSystem.ambSpotsList env side ind).length := h
      _ = 3 := by simp [ChunkSystem.ambSpotsList]
  · intro ind light
    exact min_le_right _ _
  · intro ind light hge hlt
    unfold ChunkSystem.vertBrightness ChunkSystem.u8sub
    congr 1
    omega
  · intro ind v
    rfl

/-- Witness for C8 at the sample environment, voxel (0,0,0), block 5,
side 0: the specification instance together with a concrete evaluation of
the falloff table. -/
theorem mesher_ambient_occlusion_witness :
    ChunkSystem.AmbOcclusionSpec sampleEnv ⟨0, 0, 0⟩ 5 0 0 0 0 ∧
    ChunkSystem.AMB_CHANGES 3 = 8 :=
  ⟨mesher_ambient_occlusion sampleEnv ⟨0, 0, 0⟩ 5 0 0 0 0, by decide⟩

namespace ChunkSystem

/-- Reusable slot bookkeeping record, from ChunkFacade in
src/src/chunk.rs (lines 76-81). -/
structure ChunkFacade where
  geo_index : Nat
  used : Bool
  pos : IVec2
deriving DecidableEq, Repr

/-- The placeholder coordinate IVec2 999999 999999 given to fresh slots
(src/src/chunk.rs lines 50-53 and 110-114). -/
def sentinelPos : IVec2 := ⟨999999, 999999⟩

/-- State of the slot pool, the takencare spatial index, the geometry
bank and the ready-geometry queue of a ChunkSystem.  chunks and geobank
are length-nslots vectors represented as functions; takencare is the
DashMap from coordinates to facade snapshots; geoqueue is the lock-free
ready queue of slot indices. -/
structure CSState where
  nslots : Nat
  chunks : Nat → ChunkFacade
  geopos : Nat → IVec2
  geodata : Nat → GeoData
  takencare : IVec2 → Option ChunkFacade
  geoqueue : List Nat

/-- Pointwise update of a Nat-indexed vector. -/
def updF {β : Type} (f : Nat → β) (i : Nat) (b : β) : Nat → β :=
  fun j => if j = i then b else f j

/-- Pointwise update of the spatial index map. -/
def updTC (f : IVec2 → Option ChunkFacade) (p : IVec2) (v : Option ChunkFacade) :
    IVec2 → Option ChunkFacade :=
  fun q => if q = p then v else f q

theorem updF_same {β : Type} (f : Nat → β) (i : Nat) (b : β) : updF f i b i = b := by
  simp [updF]

theorem updF_other {β : Type} (f : Nat → β) (i j : Nat) (b : β) (h : j ≠ i) :
    updF f i b j = f j := by
  simp [updF, h]

/-- Fresh ChunkSystem, from ChunkSystem::new (src/src/chunk.rs lines
96-123): (2 radius + 5) squared slots, all unused at the placeholder
coordinate with geo_index equal to their position, an empty index and an
empty ready queue. -/
def CSState.new (radius : Nat) : CSState where
  nslots := (2 * radius + 5) * (2 * radius + 5)
  chunks := fun n => ⟨n, false, sentinelPos⟩
  geopos := fun _ => sentinelPos
  geodata := fun _ => GeoData.empty
  takencare := fun _ => none
  geoqueue := []

/-- ChunkSystem::rebuild_index (src/src/chunk.rs lines 147-262) on the
bookkeeping state: mark the slot used, clear its streams and remesh them
for the slot's current coordinate (the meshing pass is the mesh
parameter, instantiated with meshChunk), push the slot index onto the
ready queue, and insert the facade snapshot into takencare if its
coordinate is not yet indexed. -/
def rebuild_index_st (mesh : IVec2 → GeoData) (s : CSState) (index : Nat) : CSState :=
  let c2 : ChunkFacade := { s.chunks index with used := true }
  let s1 : CSState :=
    { s with chunks := updF s.chunks index c2,
             geodata := updF s.geodata index (mesh c2.pos),
             geoqueue := s.geoqueue ++ [index] }
  match s1.takencare c2.pos with
  | none => { s1 with takencare := updTC s1.takencare c2.pos (some c2) }
  | some _ => s1

/-- ChunkSystem::move_and_rebuild (src/src/chunk.rs lines 124-145): if
cpos is not indexed, remove the slot's old coordinate from the index when
present, reassign the slot (facade and geometry position) to cpos and
rebuild it; otherwise rebuild the slot that already owns cpos. -/
def move_and_rebuild_st (mesh : IVec2 → GeoData) (s : CSState) (index : Nat)
    (cpos : IVec2) : CSState :=
  match s.takencare cpos with
  | none =>
    let c := s.chunks index
    let tc1 := if (s.takencare c.pos).isSome
      then updTC s.takencare c.pos none else s.takencare
    let s1 : CSState :=
      { s with takencare := tc1,
               chunks := updF s.chunks index { c with pos := cpos },
               geopos := updF s.geopos index cpos }
    rebuild_index_st mesh s1 index
  | some f => rebuild_index_st mesh s f.geo_index

/-- One operation on the chunk system: a move_and_rebuild call or a
direct rebuild_index call (as issued by the scheduler queues). -/
inductive CSOp where
  | mr (index : Nat) (cpos : IVec2)
  | rb (index : Nat)
deriving DecidableEq, Repr

/-- Apply one operation. -/
def csStep (mesh : IVec2 → GeoData) (s : CSState) : CSOp → CSState
  | .mr i c => move_and_rebuild_st mesh s i c
  | .rb i => rebuild_index_st mesh s i

/-- Apply a sequence of operations in order. -/
def runOps (mesh : IVec2 → GeoData) (s : CSState) : List CSOp → CSState
  | [] => s
  | op :: rest => runOps mesh (csStep mesh s op) rest

/-- Well-formedness of one operation: in-bounds slot index; a
move_and_rebuild target distinct from the placeholder coordinate; a
direct rebuild only of a slot whose coordinate is already indexed (as the
scheduler queues only carry slots that went through move_and_rebuild). -/
def okOp (s : CSState) : CSOp → Bool
  | .mr i c => decide (i < s.nslots) && decide (c ≠ sentinelPos)
  | .rb i => decide (i < s.nslots) && (s.takencare (s.chunks i).pos).isSome

/-- Well-formedness of a whole operation sequence. -/
def okOps (mesh : IVec2 → GeoData) (s : CSState) : List CSOp → Bool
  | [] => true
  | op :: rest => okOp s op && okOps mesh (csStep mesh s op) rest

/-- Spatial-index invariant: slots carry their own index; takencare
snapshots are current, keyed by their coordinate and used; used slots are
indexed under their coordinate; unused slots sit at the placeholder; the
placeholder is never indexed. -/
def SlotInv (s : CSState) : Prop :=
  (∀ i, i < s.nslots → (s.chunks i).geo_index = i) ∧
  (∀ p f, s.takencare p = some f → f.geo_index < s.nslots ∧ s.chunks f.geo_index = f) ∧
  (∀ p f, s.takencare p = some f → f.pos = p ∧ f.used = true) ∧
  (∀ i, i < s.nslots → (s.chunks i).used = true →
      s.takencare (s.chunks i).pos = some (s.chunks i)) ∧
  (∀ i, i < s.nslots → (s.chunks i).used = false → (s.chunks i).pos = sentinelPos) ∧
  s.takencare sentinelPos = none

/-- The bijectivity properties claim C1 asserts: no two occupied slots
claim the same coordinate, no two coordinates are indexed to the same
slot, and every occupied slot is indexed back to itself. -/
def IndexBijection (s : CSState) : Prop :=
  (∀ i j, i < s.nslots → j < s.nslots → i ≠ j →
     (s.chunks i).used = true → (s.chunks j).used = true →
     (s.chunks i).pos ≠ (s.chunks j).pos) ∧
  (∀ p q f g, s.takencare p = some f → s.takencare q = some g →
     f.geo_index = g.geo_index → p = q) ∧
  (∀ i, i < s.nslots → (s.chunks i).used = true →
     (s.takencare (s.chunks i).pos).map ChunkFacade.geo_index = some i)

theorem slotInv_new (radius : Nat) : SlotInv (CSState.new radius) := by
  refine ⟨?_, ?_, ?_, ?_, ?_, ?_⟩ <;> intros <;> simp_all [CSState.new]

theorem slotInv_bijection (s : CSState) (inv : SlotInv s) : IndexBijection s := by
  obtain ⟨h1, h2, h3, h4, h5, h6⟩ := inv
  refine ⟨?_, ?_, ?_⟩
  · intro i j hi hj hij hui huj heq
    have hti := h4 i hi hui
    have htj := h4 j hj huj
    rw [heq] at hti
    rw [hti] at htj
    have := congrArg ChunkFacade.geo_index (Option.some.inj htj)
    rw [h1 i hi, h1 j hj] at this
    exact hij this
  · intro p q f g hp hq hfg
    have hfp := (h3 p f hp).1
    have hgq := (h3 q g hq).1
    have hcf := (h2 p f hp).2
    have hcg := (h2 q g hq).2
    rw [hfg] at hcf
    rw [hcf] at hcg
    rw [← hfp, ← hgq, hcg]
  · intro i hi hui
    rw [h4 i hi hui]
    simp [h1 i hi]

theorem updF_collapse {β : Type} (f : Nat → β) (i : Nat) (a b : β) :
    updF (updF f i a) i b = updF f i b := by
  funext j
  unfold updF
  split <;> rfl

theorem rebuild_index_st_geodata (mesh : IVec2 → GeoData) (s : CSState) (i : Nat) :
    (rebuild_index_st mesh s i).geodata = updF s.geodata i (mesh ((s.chunks i).pos)) := by
  simp only [rebuild_index_st]
  split <;> rfl

theorem rebuild_index_st_chunks (mesh : IVec2 → GeoData) (s : CSState) (i : Nat) :
    (rebuild_index_st mesh s i).chunks =
      updF s.chunks i ⟨(s.chunks i).geo_index, true, (s.chunks i).pos⟩ := by
  simp only [rebuild_index_st]
  split <;> rfl

/-- When the slot's coordinate is already indexed, rebuild_index only
marks it used (a no-op on an indexed slot), remeshes its streams and
pushes it onto the ready queue: the facades and the index are untouched. -/
theorem rebuild_index_st_indexed (mesh : IVec2 → GeoData) (s : CSState) (i : Nat)
    (inv : SlotInv s) (hi : i < s.nslots)
    (hsome : (s.takencare (s.chunks i).pos).isSome = true) :
    rebuild_index_st mesh s i =
      { s with geodata := updF s.geodata i (mesh ((s.chunks i).pos)),
               geoqueue := s.geoqueue ++ [i] } := by
  obtain ⟨h1, h2, h3, h4, h5, h6⟩ := inv
  have hused : (s.chunks i).used = true := by
    cases hb : (s.chunks i).used with
    | true => rfl
    | false =>
      rw [h5 i hi hb, h6] at hsome
      simp at hsome
  have hc2 : ({ s.chunks i with used := true } : ChunkFacade) = s.chunks i := by
    cases hcc : s.chunks i
    rw [hcc] at hused
    simp_all
  have hch : updF s.chunks i (s.chunks i) = s.chunks := by
    funext j
    unfold updF
    split <;> simp_all
  obtain ⟨f, hf⟩ := Option.isSome_iff_exists.mp hsome
  unfold rebuild_index_st
  simp only [hc2, hch, hf]

theorem slotInv_rebuild_indexed (mesh : IVec2 → GeoData) (s : CSState) (i : Nat)
    (inv : SlotInv s) (hi : i < s.nslots)
    (hsome : (s.takencare (s.chunks i).pos).isSome = true) :
    SlotInv (rebuild_index_st mesh s i) := by
  rw [rebuild_index_st_indexed mesh s i inv hi hsome]
  exact inv

/-- When cpos is not yet indexed, move_and_rebuild removes the slot's old
coordinate from the index, reassigns the slot and its geometry position
to cpos, remeshes, enqueues the slot and inserts the new mapping: the
remove of the old coordinate happens before the insert of the new one. -/
theorem move_and_rebuild_st_fresh (mesh : IVec2 → GeoData) (s : CSState)
    (i : Nat) (c : IVec2) (inv : SlotInv s) (hi : i < s.nslots)
    (hcs : c ≠ sentinelPos) (hc : s.takencare c = none) :
    move_and_rebuild_st mesh s i c =
      { s with chunks := updF s.chunks i ⟨i, true, c⟩,
               geopos := updF s.geopos i c,
               geodata := updF s.geodata i (mesh c),
               takencare := updTC (updTC s.takencare (s.chunks i).pos none) c
                 (some ⟨i, true, c⟩),
               geoqueue := s.geoqueue ++ [i] } := by
  obtain ⟨h1, h2, h3, h4, h5, h6⟩ := inv
  have hne : c ≠ (s.chunks i).pos := by
    cases hb : (s.chunks i).used with
    | true =>
      intro hcp
      rw [hcp] at hc
      rw [h4 i hi hb] at hc
      cases hc
    | false =>
      rw [h5 i hi hb]
      exact hcs
  have htc1 : (if (s.takencare (s.chunks i).pos).isSome
      then updTC s.takencare (s.chunks i).pos none else s.takencare) =
      updTC s.takencare (s.chunks i).pos none := by
    split
    · rfl
    · funext q
      unfold updTC
      split
      · subst q
        cases hv : s.takencare (s.chunks i).pos with
        | none => rfl
        | some g => simp_all
      · rfl
  have hgeo : (s.chunks i).geo_index = i := h1 i hi
  unfold move_and_rebuild_st
  rw [hc]
  simp only [htc1]
  unfold rebuild_index_st
  simp only [updF_same, updF_collapse]
  have hscr : updTC s.takencare (s.chunks i).pos none c = none := by
    unfold updTC
    split
    · rfl
    · exact hc
  have hmk : ({ { (s.chunks i) with pos := c } with used := true } : ChunkFacade) =
      ⟨i, true, c⟩ := by
    cases hcc : s.chunks i
    rw [hcc] at hgeo
    simp_all
  simp only [hmk, hscr]

theorem slotInv_mr_fresh (mesh : IVec2 → GeoData) (s : CSState) (i : Nat)
    (c : IVec2) (inv : SlotInv s) (hi : i < s.nslots)
    (hcs : c ≠ sentinelPos) (hc : s.takencare c = none) :
    SlotInv (move_and_rebuild_st mesh s i c) := by
  rw [move_and_rebuild_st_fresh mesh s i c inv hi hcs hc]
  obtain ⟨h1, h2, h3, h4, h5, h6⟩ := inv
  unfold SlotInv
  dsimp only
  have hold : ∀ j, j < s.nslots → j ≠ i → (s.chunks j).used = true →
      (s.chunks j).pos ≠ (s.chunks i).pos ∧ (s.chunks j).pos ≠ c := by
    intro j hj hji hu
    constructor
    · intro heq
      cases hb : (s.chunks i).used with
      | true =>
        have hsj := h4 j hj hu
        have hsi := h4 i hi hb
        rw [heq] at hsj
        rw [hsi] at hsj
        have := congrArg ChunkFacade.geo_index (Option.some.inj hsj)
        rw [h1 i hi, h1 j hj] at this
        exact hji this.symm
      | false =>
        rw [h5 i hi hb] at heq
        have hsj := h4 j hj hu
        rw [heq, h6] at hsj
        cases hsj
    · intro heq
      have hsj := h4 j hj hu
      rw [heq, hc] at hsj
      cases hsj
  refine ⟨?_, ?_, ?_, ?_, ?_, ?_⟩
  · intro j hj
    by_cases hji : j = i
    · subst hji
      simp [updF_same]
    · rw [updF_other _ _ _ _ hji]
      exact h1 j hj
  · intro p f hp
    simp only [updTC] at hp
    by_cases hpc : p = c
    · rw [if_pos hpc] at hp
      cases hp
      exact ⟨hi, by simp [updF_same]⟩
    · rw [if_neg hpc] at hp
      by_cases hpo : p = (s.chunks i).pos
      · rw [if_pos hpo] at hp
        cases hp
      · rw [if_neg hpo] at hp
        obtain ⟨hlt, hcf⟩ := h2 p f hp
        refine ⟨hlt, ?_⟩
        have hfi : f.geo_index ≠ i := by
          intro hfg
          rw [hfg] at hcf
          have hfp := (h3 p f hp).1
          rw [← hcf] at hfp
          exact hpo hfp.symm
        rw [updF_other _ _ _ _ hfi]
        exact hcf
  · intro p f hp
    simp only [updTC] at hp
    by_cases hpc : p = c
    · rw [if_pos hpc] at hp
      cases hp
      exact ⟨hpc.symm, rfl⟩
    · rw [if_neg hpc] at hp
      by_cases hpo : p = (s.chunks i).pos
      · rw [if_pos hpo] at hp
        cases hp
      · rw [if_neg hpo] at hp
        exact h3 p f hp
  · intro j hj hu
    by_cases hji : j = i
    · subst hji
      simp only [updF_same]
      simp [updTC]
    · rw [updF_other _ _ _ _ hji] at hu ⊢
      obtain ⟨hno, hnc⟩ := hold j hj hji hu
      have := h4 j hj hu
      simp only [updTC, if_neg hnc, if_neg hno]
      exact this
  · intro j hj hu
    by_cases hji : j = i
    · subst hji
      rw [updF_same] at hu
      cases hu
    · rw [updF_other _ _ _ _ hji] at hu ⊢
      exact h5 j hj hu
  · have hsc : sentinelPos ≠ c := fun h => hcs h.symm
    simp only [updTC, if_neg hsc]
    by_cases hso : sentinelPos = (s.chunks i).pos
    · rw [if_pos hso]
    · rw [if_neg hso]
      exact h6

theorem slotInv_step (mesh : IVec2 → GeoData) (s : CSState) (op : CSOp)
    (inv : SlotInv s) (hop : okOp s op = true) : SlotInv (csStep mesh s op) := by
  cases op with
  | rb i =>
    simp only [okOp, Bool.and_eq_true, decide_eq_true_eq] at hop
    exact slotInv_rebuild_indexed mesh s i inv hop.1 hop.2
  | mr i c =>
    simp only [okOp, Bool.and_eq_true, decide_eq_true_eq] at hop
    obtain ⟨hi, hcs⟩ := hop
    cases hcv : s.takencare c with
    | none => exact slotInv_mr_fresh mesh s i c inv hi hcs hcv
    | some f =>
      have hlt := (inv.2.1 c f hcv).1
      have hcf := (inv.2.1 c f hcv).2
      have hfp := (inv.2.2.1 c f hcv).1
      have hsome : (s.takencare (s.chunks f.geo_index).pos).isSome = true := by
        rw [hcf, hfp, hcv]
        rfl
      simp only [csStep, move_and_rebuild_st, hcv]
      exact slotInv_rebuild_indexed mesh s f.geo_index inv hlt hsome

theorem slotInv_run (mesh : IVec2 → GeoData) :
    ∀ (ops : List CSOp) (s : CSState), SlotInv s → okOps mesh s ops = true →
      SlotInv (runOps mesh s ops) := by
  intro ops
  induction ops with
  | nil => intro s inv _; exact inv
  | cons op rest ih =>
    intro s inv hok
    simp only [okOps, Bool.and_eq_true] at hok
    exact ih (csStep mesh s op) (slotInv_step mesh s op inv hok.1) hok.2

/-- What claim C3 asserts about reusing an indexed coordinate, amended:
the index and all slot assignments are untouched and no entry is added or
removed, but the operation itself rebuilds the owning slot (remeshes its
streams and enqueues it on the ready queue) instead of leaving rebuilding
to the caller. -/
def AcquireReuseSpec (mesh : IVec2 → GeoData) (s : CSState) (i : Nat)
    (c : IVec2) (f : ChunkFacade) : Prop :=
  (move_and_rebuild_st mesh s i c).takencare = s.takencare ∧
  (∀ j, (move_and_rebuild_st mesh s i c).chunks j = s.chunks j) ∧
  (∀ j, (move_and_rebuild_st mesh s i c).geopos j = s.geopos j) ∧
  (move_and_rebuild_st mesh s i c).geoqueue = s.geoqueue ++ [f.geo_index] ∧
  (move_and_rebuild_st mesh s i c).geodata f.geo_index = mesh c

end ChunkSystem

/-- Counterexample to claim C1 as stated: two direct rebuild_index
operations on a fresh ChunkSystem leave slots 0 and 1 both occupied and
claiming the same (placeholder) coordinate, while the takencare index
maps that coordinate to slot 0 only. -/
theorem spatial_index_bijectivity_counterexample :
    (((ChunkSystem.runOps (fun _ => ChunkSystem.GeoData.empty)
        (ChunkSystem.CSState.new 0)
        [ChunkSystem.CSOp.rb 0, ChunkSystem.CSOp.rb 1]).chunks 0).used = true ∧
     ((ChunkSystem.runOps (fun _ => ChunkSystem.GeoData.empty)
        (ChunkSystem.CSState.new 0)
        [ChunkSystem.CSOp.rb 0, ChunkSystem.CSOp.rb 1]).chunks 1).used = true) ∧
    ((ChunkSystem.runOps (fun _ => ChunkSystem.GeoData.empty)
        (ChunkSystem.CSState.new 0)
        [ChunkSystem.CSOp.rb 0, ChunkSystem.CSOp.rb 1]).chunks 0).pos =
      ((ChunkSystem.runOps (fun _ => ChunkSystem.GeoData.empty)
        (ChunkSystem.CSState.new 0)
        [ChunkSystem.CSOp.rb 0, ChunkSystem.CSOp.rb 1]).chunks 1).pos ∧
    ((ChunkSystem.runOps (fun _ => ChunkSystem.GeoData.empty)
        (ChunkSystem.CSState.new 0)
        [ChunkSystem.CSOp.rb 0, ChunkSystem.CSOp.rb 1]).takencare
          (((ChunkSystem.runOps (fun _ => ChunkSystem.GeoData.empty)
            (ChunkSystem.CSState.new 0)
            [ChunkSystem.CSOp.rb 0, ChunkSystem.CSOp.rb 1]).chunks 1).pos)).map
      ChunkSystem.ChunkFacade.geo_index = some 0 := by
  decide

/-- Claim C1 (amended): for every sequence of move_and_rebuild and
rebuild_index operations starting from a fresh ChunkSystem, provided
every move_and_rebuild target differs from the placeholder coordinate
(999999, 999999) and rebuild_index is only invoked on slots whose
coordinate is already indexed (as move_and_rebuild and the scheduler
queues do), the spatial index stays bijective: no two occupied slots
claim the same coordinate, no two coordinates map to the same slot, every
occupied slot is indexed back to itself, and a reassignment removes the
slot's old coordinate from the index before inserting the new one. -/
theorem spatial_index_bijectivity (mesh : IVec2 → ChunkSystem.GeoData)
    (radius : Nat) (ops : List ChunkSystem.CSOp)
    (hok : ChunkSystem.okOps mesh (ChunkSystem.CSState.new radius) ops = true) :
    ChunkSystem.SlotInv (ChunkSystem.runOps mesh (ChunkSystem.CSState.new radius) ops) ∧
    ChunkSystem.IndexBijection (ChunkSystem.runOps mesh (ChunkSystem.CSState.new radius) ops) ∧
    (∀ i c, i < (ChunkSystem.runOps mesh (ChunkSystem.CSState.new radius) ops).nslots →
      c ≠ ChunkSystem.sentinelPos →
      (ChunkSystem.runOps mesh (ChunkSystem.CSState.new radius) ops).takencare c = none →
      (ChunkSystem.move_and_rebuild_st mesh
          (ChunkSystem.runOps mesh (ChunkSystem.CSState.new radius) ops) i c).takencare =
        ChunkSystem.updTC (ChunkSystem.updTC
          (ChunkSystem.runOps mesh (ChunkSystem.CSState.new radius) ops).takencare
          (((ChunkSystem.runOps mesh (ChunkSystem.CSState.new radius) ops).chunks i).pos) none)
          c (some ⟨i, true, c⟩)) := by
  have hinv := ChunkSystem.slotInv_run mesh ops _ (ChunkSystem.slotInv_new radius) hok
  refine ⟨hinv, ChunkSystem.slotInv_bijection _ hinv, ?_⟩
  intro i c hi hcs hc
  rw [ChunkSystem.move_and_rebuild_st_fresh mesh _ i c hinv hi hcs hc]

/-- Witness for C1: a concrete well-formed two-operation sequence on a
fresh pool together with the resulting invariant. -/
theorem spatial_index_bijectivity_witness :
    ChunkSystem.okOps (fun _ => ChunkSystem.GeoData.empty)
      (ChunkSystem.CSState.new 0)
      [ChunkSystem.CSOp.mr 0 ⟨0, 0⟩, ChunkSystem.CSOp.mr 1 ⟨1, 0⟩] = true ∧
    ChunkSystem.SlotInv (ChunkSystem.runOps (fun _ => ChunkSystem.GeoData.empty)
      (ChunkSystem.CSState.new 0)
      [ChunkSystem.CSOp.mr 0 ⟨0, 0⟩, ChunkSystem.CSOp.mr 1 ⟨1, 0⟩]) ∧
    ChunkSystem.IndexBijection (ChunkSystem.runOps (fun _ => ChunkSystem.GeoData.empty)
      (ChunkSystem.CSState.new 0)
      [ChunkSystem.CSOp.mr 0 ⟨0, 0⟩, ChunkSystem.CSOp.mr 1 ⟨1, 0⟩]) :=
  ⟨by decide,
   (spatial_index_bijectivity (fun _ => ChunkSystem.GeoData.empty) 0
     [ChunkSystem.CSOp.mr 0 ⟨0, 0⟩, ChunkSystem.CSOp.mr 1 ⟨1, 0⟩] (by decide)).1,
   (spatial_index_bijectivity (fun _ => ChunkSystem.GeoData.empty) 0
     [ChunkSystem.CSOp.mr 0 ⟨0, 0⟩, ChunkSystem.CSOp.mr 1 ⟨1, 0⟩] (by decide)).2.1⟩

/-- Counterexample to claim C3 as stated: move_and_rebuild on a
coordinate that is already indexed does perform a rebuild itself, pushing
the owning slot onto the ready-geometry queue, instead of leaving all
rebuilding to the caller. -/
theorem acquire_no_rebuild_counterexample :
    ((ChunkSystem.runOps (fun _ => ChunkSystem.GeoData.empty)
        (ChunkSystem.CSState.new 0) [ChunkSystem.CSOp.mr 0 ⟨0, 0⟩]).takencare
      ⟨0, 0⟩).isSome = true ∧
    (ChunkSystem.move_and_rebuild_st (fun _ => ChunkSystem.GeoData.empty)
        (ChunkSystem.runOps (fun _ => ChunkSystem.GeoData.empty)
          (ChunkSystem.CSState.new 0) [ChunkSystem.CSOp.mr 0 ⟨0, 0⟩]) 1 ⟨0, 0⟩).geoqueue =
      (ChunkSystem.runOps (fun _ => ChunkSystem.GeoData.empty)
        (ChunkSystem.CSState.new 0) [ChunkSystem.CSOp.mr 0 ⟨0, 0⟩]).geoqueue ++ [0] ∧
    (ChunkSystem.move_and_rebuild_st (fun _ => ChunkSystem.GeoData.empty)
        (ChunkSystem.runOps (fun _ => ChunkSystem.GeoData.empty)
          (ChunkSystem.CSState.new 0) [ChunkSystem.CSOp.mr 0 ⟨0, 0⟩]) 1 ⟨0, 0⟩).geoqueue ≠
      (ChunkSystem.runOps (fun _ => ChunkSystem.GeoData.empty)
        (ChunkSystem.CSState.new 0) [ChunkSystem.CSOp.mr 0 ⟨0, 0⟩]).geoqueue := by
  decide

/-- Claim C3 (amended): in any reachable well-formed state, for a
coordinate that is already present in the spatial index, move_and_rebuild
uses that coordinate's existing slot and leaves every slot assignment and
every index entry unchanged (no entry added or removed), but it does
rebuild that slot itself: the slot's streams are remeshed for the
coordinate and the slot is pushed onto the ready-geometry queue. -/
theorem acquire_existing_reuses_slot (mesh : IVec2 → ChunkSystem.GeoData)
    (radius : Nat) (ops : List ChunkSystem.CSOp)
    (hok : ChunkSystem.okOps mesh (ChunkSystem.CSState.new radius) ops = true)
    (i : Nat) (c : IVec2) (f : ChunkSystem.ChunkFacade)
    (hf : (ChunkSystem.runOps mesh (ChunkSystem.CSState.new radius) ops).takencare c
      = some f) :
    ChunkSystem.AcquireReuseSpec mesh
      (ChunkSystem.runOps mesh (ChunkSystem.CSState.new radius) ops) i c f := by
  have hinv := ChunkSystem.slotInv_run mesh ops _ (ChunkSystem.slotInv_new radius) hok
  have hlt := (hinv.2.1 c f hf).1
  have hcf := (hinv.2.1 c f hf).2
  have hfp := (hinv.2.2.1 c f hf).1
  have hpos : ((ChunkSystem.runOps mesh (ChunkSystem.CSState.new radius) ops).chunks
      f.geo_index).pos = c := by
    rw [hcf, hfp]
  have hsome : ((ChunkSystem.runOps mesh (ChunkSystem.CSState.new radius) ops).takencare
      ((ChunkSystem.runOps mesh (ChunkSystem.CSState.new radius) ops).chunks
        f.geo_index).pos).isSome = true := by
    rw [hpos, hf]
    rfl
  have hmr : ChunkSystem.move_and_rebuild_st mesh
      (ChunkSystem.runOps mesh (ChunkSystem.CSState.new radius) ops) i c =
      ChunkSystem.rebuild_index_st mesh
        (ChunkSystem.runOps mesh (ChunkSystem.CSState.new radius) ops) f.geo_index := by
    simp only [ChunkSystem.move_and_rebuild_st, hf]
  rw [ChunkSystem.AcquireReuseSpec, hmr,
    ChunkSystem.rebuild_index_st_indexed mesh _ f.geo_index hinv hlt hsome]
  refine ⟨rfl, fun j => rfl, fun j => rfl, rfl, ?_⟩
  rw [hpos]
  exact ChunkSystem.updF_same _ _ _

/-- Witness for C3: after one move_and_rebuild installing (0,0) in slot
0, a second acquire of (0,0) through slot index 1 satisfies the reuse
specification. -/
theorem acquire_existing_reuses_slot_witness :
    ChunkSystem.okOps (fun _ => ChunkSystem.GeoData.empty)
      (ChunkSystem.CSState.new 0) [ChunkSystem.CSOp.mr 0 ⟨0, 0⟩] = true ∧
    (ChunkSystem.runOps (fun _ => ChunkSystem.GeoData.empty)
      (ChunkSystem.CSState.new 0) [ChunkSystem.CSOp.mr 0 ⟨0, 0⟩]).takencare ⟨0, 0⟩ =
      some ⟨0, true, ⟨0, 0⟩⟩ ∧
    ChunkSystem.AcquireReuseSpec (fun _ => ChunkSystem.GeoData.empty)
      (ChunkSystem.runOps (fun _ => ChunkSystem.GeoData.empty)
        (ChunkSystem.CSState.new 0) [ChunkSystem.CSOp.mr 0 ⟨0, 0⟩]) 1 ⟨0, 0⟩
      ⟨0, true, ⟨0, 0⟩⟩ :=
  ⟨by decide, by decide,
   acquire_existing_reuses_slot (fun _ => ChunkSystem.GeoData.empty) 0
     [ChunkSystem.CSOp.mr 0 ⟨0, 0⟩] (by decide) 1 ⟨0, 0⟩ ⟨0, true, ⟨0, 0⟩⟩ (by decide)⟩

/-- Claim C9: blockat is referentially transparent (the memoised sampler
agrees with the pure function whenever the pass memo is consistent, and
in particular from the fresh empty memo of each rebuild), the memoised
meshing pass equals the pure per-voxel meshing, and rebuilding the same
slot twice with no intervening edits yields identical vertex streams:
each rebuild clears the slot and fully replaces its streams with the mesh
of the slot's coordinate, independent of any previous stream contents. -/
theorem generation_and_meshing_deterministic :
    (∀ (env : MeshEnv) (m : ChunkSystem.Memo) (spot : IVec3),
       ChunkSystem.MemoOK env m →
       (ChunkSystem.blockatmemo env spot m).1 = ChunkSystem.blockat env spot) ∧
    (∀ (env : MeshEnv) (cpos : IVec2),
       ChunkSystem.meshChunk env cpos = ChunkSystem.meshChunkPure env cpos) ∧
    (∀ (env : MeshEnv) (s : ChunkSystem.CSState) (i : Nat),
       (ChunkSystem.rebuild_index_st (ChunkSystem.meshChunk env)
           (ChunkSystem.rebuild_index_st (ChunkSystem.meshChunk env) s i) i).geodata i =
         (ChunkSystem.rebuild_index_st (ChunkSystem.meshChunk env) s i).geodata i ∧
       (ChunkSystem.rebuild_index_st (ChunkSystem.meshChunk env) s i).geodata i =
         ChunkSystem.meshChunk env ((s.chunks i).pos)) := by
  refine ⟨?_, ?_, ?_⟩
  · intro env m spot hm
    exact ChunkSystem.blockatmemo_fst env spot m hm
  · intro env cpos
    exact ChunkSystem.meshChunk_eq_pure env cpos
  · intro env s i
    have hpos : ((ChunkSystem.rebuild_index_st (ChunkSystem.meshChunk env) s i).chunks i).pos =
        (s.chunks i).pos := by
      rw [ChunkSystem.rebuild_index_st_chunks]
      rw [ChunkSystem.updF_same]
    constructor
    · rw [ChunkSystem.rebuild_index_st_geodata (ChunkSystem.meshChunk env)
        (ChunkSystem.rebuild_index_st (ChunkSystem.meshChunk env) s i) i]
      rw [ChunkSystem.updF_same, hpos]
      rw [ChunkSystem.rebuild_index_st_geodata, ChunkSystem.updF_same]
    · rw [ChunkSystem.rebuild_index_st_geodata, ChunkSystem.updF_same]

/-- Witness for C9: the memo-consistency hypothesis holds for the empty
memo of a fresh pass, and the memoised sampler then agrees with blockat
at the origin in the sample environment. -/
theorem generation_and_meshing_deterministic_witness :
    ChunkSystem.MemoOK sampleEnv ChunkSystem.Memo.empty ∧
    (ChunkSystem.blockatmemo sampleEnv ⟨0, 0, 0⟩ ChunkSystem.Memo.empty).1 =
      ChunkSystem.blockat sampleEnv ⟨0, 0, 0⟩ :=
  ⟨ChunkSystem.MemoOK.empty sampleEnv,
   generation_and_meshing_deterministic.1 sampleEnv ChunkSystem.Memo.empty ⟨0, 0, 0⟩
     (ChunkSystem.MemoOK.empty sampleEnv)⟩

namespace Scheduler

/-- The four rebuild priority tiers of the ChunkSystem queues drained by
Game::chunk_thread_inner_function in src/lib/src/game.rs. -/
inductive Tier where
  | light
  | user
  | gen
  | background
deriving DecidableEq, Repr

/-- A rebuild event: which tier's queue the request was popped from and
the slot index that was rebuilt. -/
abbrev Ev := Tier × Nat

/-- Pop at most one request from a queue, tagging the event with its
tier; models the single match-on-pop blocks of the inner function. -/
def popEv (t : Tier) : List Nat → List Ev × List Nat
  | [] => ([], [])
  | x :: xs => ([(t, x)], xs)

/-- The user phase (src/lib/src/game.rs lines 1730-1752): pop user
requests until empty; after each user rebuild, opportunistically pop one
light request. -/
def userPhase : List Nat → List Nat → List Ev × List Nat
  | [], l => ([], l)
  | x :: us, l =>
    let pl := popEv Tier.light l
    let rest := userPhase us pl.2
    ((Tier.user, x) :: pl.1 ++ rest.1, rest.2)

/-- The gen phase (src/lib/src/game.rs lines 1753-1779): pop gen
requests until empty; after each gen rebuild, opportunistically pop one
user and one light request. -/
def genPhase : List Nat → List Nat → List Nat → List Ev × List Nat × List Nat
  | [], u, l => ([], u, l)
  | x :: gs, u, l =>
    let pu := popEv Tier.user u
    let pl := popEv Tier.light l
    let rest := genPhase gs pu.2 pl.2
    ((Tier.gen, x) :: pu.1 ++ pl.1 ++ rest.1, rest.2)

/-- The background phase (src/lib/src/game.rs lines 1782-1828): pop
background requests until empty; after each background rebuild, pop one
user, one light and one gen request, and after a popped gen request drain
the rest of the gen queue completely. -/
def backgroundPhase : List Nat → List Nat → List Nat → List Nat → List Ev
  | [], _, _, _ => []
  | x :: bs, g, u, l =>
    let pu := popEv Tier.user u
    let pl := popEv Tier.light l
    match g with
    | [] => (Tier.background, x) :: pu.1 ++ pl.1 ++ backgroundPhase bs [] pu.2 pl.2
    | y :: gs =>
      (Tier.background, x) :: pu.1 ++ pl.1 ++ (Tier.gen, y) ::
        gs.map (fun z => (Tier.gen, z)) ++ backgroundPhase bs [] pu.2 pl.2

/-- One scheduling pass of Game::chunk_thread_inner_function
(src/lib/src/game.rs lines 1712-1828) over the four queues, with no
concurrent producers: drain light fully, then the user phase, then the
gen phase, then the background phase, in the code's nesting.  Returns the
rebuild events in execution order. -/
def pass (l u g b : List Nat) : List Ev :=
  let levs := l.map (fun x => (Tier.light, x))
  let ru := userPhase u []
  let rg := genPhase g [] ru.2
  let rb := backgroundPhase b [] rg.2.1 rg.2.2
  levs ++ ru.1 ++ rg.1 ++ rb

theorem userPhase_empty_light (u : List Nat) :
    userPhase u [] = (u.map (fun x => (Tier.user, x)), []) := by
  induction u with
  | nil => rfl
  | cons x us ih =>
    simp [userPhase, popEv, ih]

theorem genPhase_empty (g : List Nat) :
    genPhase g [] [] = (g.map (fun x => (Tier.gen, x)), [], []) := by
  induction g with
  | nil => rfl
  | cons x gs ih =>
    simp [genPhase, popEv, ih]

theorem backgroundPhase_empty (b : List Nat) :
    backgroundPhase b [] [] [] = b.map (fun x => (Tier.background, x)) := by
  induction b with
  | nil => rfl
  | cons x bs ih =>
    simp [backgroundPhase, popEv, ih]

end Scheduler

/-- Claim C2: within one scheduling pass over the queue contents present
at the start of the pass (no concurrent producers), tiers are processed
in strict priority order: all light requests are rebuilt first, then all
user requests, then all gen requests, then all background requests; in
particular every light and user request present at the start precedes
every gen request, whatever the queue sizes (such as 1 light, 1 user, 5
gen, 10 background). -/
theorem scheduler_strict_tier_order (l u g b : List Nat) :
    Scheduler.pass l u g b =
      l.map (fun x => (Scheduler.Tier.light, x)) ++
      u.map (fun x => (Scheduler.Tier.user, x)) ++
      g.map (fun x => (Scheduler.Tier.gen, x)) ++
      b.map (fun x => (Scheduler.Tier.background, x)) := by
  unfold Scheduler.pass
  simp only [Scheduler.userPhase_empty_light, Scheduler.genPhase_empty,
    Scheduler.backgroundPhase_empty, List.append_assoc]

namespace Server

/-- Protocol message tags.  Modelled from the spec: server_types.rs is
not under src/; the catalog is the spec's message catalog restricted to
the variants dispatched in src/binaries/server/src/main.rs. -/
inductive MessageType where
  | None
  | YourId
  | RequestUdm
  | Udm
  | RequestSeed
  | Seed
  | PlayerUpdate
  | BlockSet
  | RequestTakeoff
  | RequestPt
  | Pt
  | MobUpdate
deriving DecidableEq, Repr

/-- Wire header record.  Modelled from the spec: a type tag, a 3-float
vector, a float scalar, an unsigned 32-bit scalar (also the explicit
trailing-byte count for variable-length messages), and a second scalar
used by mob updates.  f32 components are carried as rationals. -/
structure Message where
  message_type : MessageType
  x : ℚ
  y : ℚ
  z : ℚ
  rot : ℚ
  info : Nat
  info2 : Nat
deriving DecidableEq, Repr

/-- Message::new as used by the server: type, vector, float scalar,
unsigned scalar; info2 defaults to 0. -/
def Message.new (t : MessageType) (x y z rot : ℚ) (info : Nat) : Message :=
  ⟨t, x, y, z, rot, info, 0⟩

/-- Truncation toward zero, the Rust `as i32` cast applied to the f32
vector components in the BlockSet branch. -/
def truncToInt (q : ℚ) : Int := if 0 ≤ q then ⌊q⌋ else -⌊-q⌋

/-- The exact bytes of one received buffer, identified by their decoded
message (none when bincode::deserialize fails). -/
structure Recv where
  decoded : Option Message
deriving DecidableEq, Repr

/-- Persisted world blobs of one seed directory world/seed: udm override
blob, seed text and world-type text.  Modelled from the spec
(PersistenceCodec): the lib-side ChunkSystem persistence code is not
under src/. -/
structure SavedWorld where
  udm : List (IVec3 × Nat)
  seedText : Nat
  ptText : Nat
deriving DecidableEq, Repr

/-- Authoritative chunk system state used by the server.  Modelled from
the spec: set_block, save_current_world_to_file, currentseed and
planet_type belong to the lib-side ChunkSystem, which is not under src/;
the spec fixes the override store as a (coordinate → block id) map that
takes precedence over the generator. -/
structure SrvChunkSystem where
  overrides : List (IVec3 × Nat)
  currentseed : Nat
  planet_type : Nat
deriving DecidableEq, Repr

/-- Modelled from the spec: ChunkSystem::set_block records the override,
replacing any previous entry for the coordinate. -/
def SrvChunkSystem.set_block (cs : SrvChunkSystem) (spot : IVec3) (id : Nat) :
    SrvChunkSystem :=
  { cs with overrides := (spot, id) :: cs.overrides.filter (fun e => e.1 != spot) }

/-- Modelled from the spec: block lookup resolves the override store
first and falls back to the world generator. -/
def SrvChunkSystem.lookup_block (env : MeshEnv) (cs : SrvChunkSystem)
    (spot : IVec3) : Nat :=
  match cs.overrides.lookup spot with
  | some b => b
  | none => ChunkSystem.blockat env spot

/-- One unit of traffic written to a client connection: a serialized
message header, the serialized id pair following the YourId header, one
of the variable-length blobs, or a verbatim re-send of a received buffer
(the redistribution loop writes buffer[..numbytes] unchanged). -/
inductive Wire where
  | header (m : Message)
  | idPair (u : Nat)
  | blobOv (ov : List (IVec3 × Nat))
  | blobSeed (n : Nat)
  | blobPt (n : Nat)
  | raw (r : Recv)
deriving DecidableEq, Repr

/-- Whole server state: the active session set (client id → consecutive
fault counter errorstrikes), the outbound byte trace of every connection
(kept outside the session set because bytes already written survive
removal), the authoritative chunk system, the known-positions map, the
persisted world files keyed by seed, and the deferred mob spawn flag. -/
structure ServerState where
  clients : List (Nat × Int)
  traces : List (Nat × List Wire)
  csys : SrvChunkSystem
  knowncams : List (Nat × (ℚ × ℚ × ℚ))
  files : List (Nat × SavedWorld)
  mobspawnqueued : Bool
deriving DecidableEq, Repr

/-- Size in bytes of the bincode-serialized u64 pair of a Uuid.
Modelled from the spec: two unsigned 64-bit words. -/
def idPairSize : Nat := 16

/-- The identity-assignment header written at the top of every client
loop iteration (src/binaries/server/src/main.rs lines 51-58). -/
def yourIdMsg : Message := Message.new MessageType.YourId 0 0 0 0 idPairSize

/-- The no-op placeholder substituted for an undecodable payload
(src/binaries/server/src/main.rs lines 66-69). -/
def noopMsg : Message := Message.new MessageType.None 0 0 0 0 0

/-- Stand-in for bincode::serialized_size of a variable-length blob.
Modelled from the spec; the exact byte count is irrelevant to the
claims. -/
def blobMeasure (n : Nat) : Nat := n

/-- Outcome of one blocking read on a client stream. -/
inductive ReadResult where
  | ok (r : Recv)
  | closed
  | errEof
  | errOther
deriving DecidableEq, Repr

/-- Append wire data to one client's connection trace. -/
def appendTrace (s : ServerState) (cid : Nat) (ws : List Wire) : ServerState :=
  { s with traces := s.traces.map (fun e =>
      (e.1, if e.1 = cid then e.2 ++ ws else e.2)) }

/-- The redistribution loop (src/binaries/server/src/main.rs lines
155-164): write the exact received bytes to every client in the current
session set, the sender included. -/
def broadcastRaw (s : ServerState) (r : Recv) : ServerState :=
  { s with traces := s.traces.map (fun e =>
      (e.1, if (s.clients.lookup e.1).isSome then e.2 ++ [Wire.raw r] else e.2)) }

/-- Overwrite one client's fault counter. -/
def setStrikes (s : ServerState) (cid : Nat) (v : Int) : ServerState :=
  { s with clients := s.clients.map (fun e => (e.1, if e.1 = cid then v else e.2)) }

/-- Remove one client from the active session set
(locked_clients.remove(&client_id)). -/
def removeClient (s : ServerState) (cid : Nat) : ServerState :=
  { s with clients := s.clients.filter (fun e => e.1 != cid) }

/-- Response wires written synchronously on the requesting connection for
the three request–response pairs; all other message types write no
response. -/
def responseWires (files : List (Nat × SavedWorld)) (cs : SrvChunkSystem)
    (m : Message) : List Wire :=
  match m.message_type with
  | MessageType.RequestUdm =>
    let blob := ((files.lookup cs.currentseed).map SavedWorld.udm).getD []
    [Wire.header (Message.new MessageType.Udm 0 0 0 0 (blobMeasure blob.length)),
     Wire.blobOv blob]
  | MessageType.RequestSeed =>
    let sd := ((files.lookup cs.currentseed).map SavedWorld.seedText).getD 0
    [Wire.header (Message.new MessageType.Seed 0 0 0 0 (blobMeasure sd)),
     Wire.blobSeed sd]
  | MessageType.RequestPt =>
    let p := ((files.lookup cs.currentseed).map SavedWorld.ptText).getD 0
    [Wire.header (Message.new MessageType.Pt 0 0 0 0 (blobMeasure p)),
     Wire.blobPt p]
  | _ => []

/-- State effects of dispatching one decoded message
(src/binaries/server/src/main.rs lines 71-153): position report into the
known-positions map; block mutation applied to the authoritative chunk
system followed by a whole-file rewrite of the world blobs for the
current seed; world regeneration resets the seed (the random draw is the
nseed parameter), toggles the world type, flags the deferred spawn event
and persists the new world; everything else changes no state. -/
def dispatchState (s : ServerState) (cid : Nat) (m : Message) (nseed : Nat) :
    ServerState :=
  match m.message_type with
  | MessageType.PlayerUpdate =>
    { s with knowncams :=
        (cid, (m.x, m.y, m.z)) :: s.knowncams.filter (fun e => e.1 != cid) }
  | MessageType.BlockSet =>
    let spot : IVec3 := ⟨truncToInt m.x, truncToInt m.y, truncToInt m.z⟩
    let cs1 := s.csys.set_block spot m.info
    let saved : SavedWorld := ⟨cs1.overrides, cs1.currentseed, cs1.planet_type⟩
    { s with csys := cs1,
             files := (cs1.currentseed, saved) ::
               s.files.filter (fun e => e.1 != cs1.currentseed) }
  | MessageType.RequestTakeoff =>
    let cs1 : SrvChunkSystem := ⟨[], nseed, (s.csys.planet_type + 1) % 2⟩
    let saved : SavedWorld := ⟨cs1.overrides, nseed, cs1.planet_type⟩
    { s with csys := cs1,
             mobspawnqueued := true,
             files := (nseed, saved) :: s.files.filter (fun e => e.1 != nseed) }
  | _ => s

/-- One iteration of the per-client loop of handle_client
(src/binaries/server/src/main.rs lines 39-191): write the identity
header and id pair first, then act on the read outcome: a non-empty read
is decoded (malformed payloads become the no-op placeholder), dispatched,
answered, and the received bytes are redistributed to every client; an
empty read or an UnexpectedEof error breaks and removes the session; any
other error increments errorstrikes and breaks (removing the session)
once the counter exceeds 4.  Returns the new state and whether the loop
broke. -/
def handleStep (s : ServerState) (cid : Nat) (nseed : Nat) (rr : ReadResult) :
    ServerState × Bool :=
  let s0 := appendTrace s cid [Wire.header yourIdMsg, Wire.idPair cid]
  match rr with
  | ReadResult.ok r =>
    let m := r.decoded.getD noopMsg
    let s1 := dispatchState s0 cid m nseed
    let s2 := appendTrace s1 cid (responseWires s1.files s1.csys m)
    (broadcastRaw s2 r, false)
  | ReadResult.closed => (removeClient s0 cid, true)
  | ReadResult.errEof => (removeClient s0 cid, true)
  | ReadResult.errOther =>
    let k := (s0.clients.lookup cid).getD 0 + 1
    let s1 := setStrikes s0 cid k
    if k > 4 then (removeClient s1 cid, true) else (s1, false)

/-- Run one client session over a list of read outcomes, stopping when
the loop breaks; returns the final state and the number of iterations
executed. -/
def runSession (s : ServerState) (cid : Nat) (nseed : Nat) :
    List ReadResult → ServerState × Nat
  | [] => (s, 0)
  | rr :: rest =>
    let st := handleStep s cid nseed rr
    if st.2 then (st.1, 1)
    else
      let r2 := runSession st.1 cid nseed rest
      (r2.1, r2.2 + 1)

/-- The bytes written so far to one connection. -/
def traceOf (s : ServerState) (cid : Nat) : List Wire :=
  (s.traces.lookup cid).getD []

/-- Number of identity-assignment headers in a trace. -/
def countYourId (ws : List Wire) : Nat :=
  (ws.filter (fun w =>
    match w with
    | Wire.header m => m.message_type == MessageType.YourId
    | _ => false)).length

/-- Request messages of the three request–response pairs plus the
world-regeneration request. -/
def requestType (t : MessageType) : Bool :=
  t == MessageType.RequestUdm || t == MessageType.RequestSeed ||
  t == MessageType.RequestTakeoff || t == MessageType.RequestPt

/-- Number of non-clean read failures in a list of read outcomes. -/
def errCount (evs : List ReadResult) : Nat :=
  (evs.filter (fun e => e == ReadResult.errOther)).length

/-- Whether the outcomes contain a clean close (empty read or
UnexpectedEof). -/
def hasClose (evs : List ReadResult) : Bool :=
  evs.any (fun e => e == ReadResult.closed || e == ReadResult.errEof)

end Server

namespace Server

theorem lookup_map_val {β : Type} (g : Nat → β → β) :
    ∀ (tr : List (Nat × β)) (cid : Nat),
      List.lookup cid (tr.map (fun e => (e.1, g e.1 e.2))) =
        (List.lookup cid tr).map (g cid) := by
  intro tr
  induction tr with
  | nil => intro cid; rfl
  | cons e rest ih =>
    intro cid
    obtain ⟨a, b⟩ := e
    simp only [List.map_cons, List.lookup]
    cases hca : (cid == a) with
    | true =>
      have : cid = a := by simpa using hca
      subst this
      rfl
    | false => exact ih cid

theorem lookup_filterne_self {β : Type} :
    ∀ (tr : List (Nat × β)) (cid : Nat),
      List.lookup cid (tr.filter (fun e => e.1 != cid)) = none := by
  intro tr
  induction tr with
  | nil => intro cid; rfl
  | cons e rest ih =>
    intro cid
    obtain ⟨a, b⟩ := e
    by_cases hac : a = cid
    · subst hac
      simp only [List.filter_cons]
      simp only [bne_self_eq_false]
      exact ih a
    · have hkeep : ((a, b).1 != cid) = true := by
        simpa using hac
      simp only [List.filter_cons, hkeep]
      have hne : (cid == a) = false := by
        simp
        intro h
        exact hac h.symm
      simp only [List.lookup, hne]
      exact ih cid

theorem lookup_filterne_other {β : Type} :
    ∀ (tr : List (Nat × β)) (cid id : Nat), id ≠ cid →
      List.lookup id (tr.filter (fun e => e.1 != cid)) = List.lookup id tr := by
  intro tr
  induction tr with
  | nil => intro cid id _; rfl
  | cons e rest ih =>
    intro cid id hne
    obtain ⟨a, b⟩ := e
    by_cases hac : a = cid
    · subst hac
      simp only [List.filter_cons, bne_self_eq_false]
      have hia : (id == a) = false := by
        simpa using hne
      simp only [List.lookup, hia]
      exact ih a id hne
    · have hkeep : ((a, b).1 != cid) = true := by
        simpa using hac
      simp only [List.filter_cons, hkeep, List.lookup]
      cases hia : (id == a) with
      | true => rfl
      | false => exact ih cid id hne

theorem appendTrace_lookup_self (s : ServerState) (cid : Nat) (ws : List Wire) :
    (appendTrace s cid ws).traces.lookup cid =
      (s.traces.lookup cid).map (fun t => t ++ ws) := by
  have h := lookup_map_val (fun k t => if k = cid then t ++ ws else t) s.traces cid
  simpa using h

theorem appendTrace_lookup_other (s : ServerState) (cid id : Nat) (ws : List Wire)
    (h : id ≠ cid) :
    (appendTrace s cid ws).traces.lookup id = s.traces.lookup id := by
  have h2 := lookup_map_val (fun k t => if k = cid then t ++ ws else t) s.traces id
  simpa [h] using h2

theorem broadcastRaw_lookup (s : ServerState) (r : Recv) (id : Nat) :
    (broadcastRaw s r).traces.lookup id =
      (s.traces.lookup id).map
        (fun t => if (s.clients.lookup id).isSome then t ++ [Wire.raw r] else t) := by
  exact lookup_map_val
    (fun k t => if (s.clients.lookup k).isSome then t ++ [Wire.raw r] else t)
    s.traces id

theorem setStrikes_lookup_self (s : ServerState) (cid : Nat) (v : Int)
    (h : (s.clients.lookup cid).isSome = true) :
    (setStrikes s cid v).clients.lookup cid = some v := by
  have h2 := lookup_map_val (fun k x => if k = cid then v else x) s.clients cid
  obtain ⟨k, hk⟩ := Option.isSome_iff_exists.mp h
  rw [hk] at h2
  simpa [hk] using h2

theorem setStrikes_lookup_other (s : ServerState) (cid id : Nat) (v : Int)
    (h : id ≠ cid) :
    (setStrikes s cid v).clients.lookup id = s.clients.lookup id := by
  have h2 := lookup_map_val (fun k x => if k = cid then v else x) s.clients id
  simpa [h] using h2

theorem removeClient_lookup_self (s : ServerState) (cid : Nat) :
    (removeClient s cid).clients.lookup cid = none :=
  lookup_filterne_self s.clients cid

theorem removeClient_lookup_other (s : ServerState) (cid id : Nat) (h : id ≠ cid) :
    (removeClient s cid).clients.lookup id = s.clients.lookup id :=
  lookup_filterne_other s.clients cid id h

theorem dispatchState_clients (s : ServerState) (cid : Nat) (m : Message)
    (nseed : Nat) : (dispatchState s cid m nseed).clients = s.clients := by
  unfold dispatchState
  split <;> rfl

theorem dispatchState_traces (s : ServerState) (cid : Nat) (m : Message)
    (nseed : Nat) : (dispatchState s cid m nseed).traces = s.traces := by
  unfold dispatchState
  split <;> rfl

theorem handleStep_ok_clients (s : ServerState) (cid nseed : Nat) (r : Recv) :
    (handleStep s cid nseed (ReadResult.ok r)).1.clients = s.clients := by
  simp only [handleStep, broadcastRaw, appendTrace]
  rw [dispatchState_clients]

theorem countYourId_append (a b : List Wire) :
    countYourId (a ++ b) = countYourId a + countYourId b := by
  simp [countYourId, List.filter_append]

theorem countYourId_responseWires (files : List (Nat × SavedWorld))
    (cs : SrvChunkSystem) (m : Message) :
    countYourId (responseWires files cs m) = 0 := by
  unfold responseWires
  split <;> rfl

theorem countYourId_raw (r : Recv) : countYourId [Wire.raw r] = 0 := rfl

theorem responseWires_nonrequest (files : List (Nat × SavedWorld))
    (cs : SrvChunkSystem) (m : Message)
    (h : requestType m.message_type = false) :
    responseWires files cs m = [] := by
  unfold responseWires
  cases hmt : m.message_type <;> simp_all [requestType]

/-- Each loop iteration writes the identity header and the id pair first,
and nothing else it writes to the same connection in that iteration is an
identity header. -/
theorem handleStep_trace_self (s : ServerState) (cid nseed : Nat)
    (rr : ReadResult) (t : List Wire) (ht : s.traces.lookup cid = some t) :
    ∃ extra, (handleStep s cid nseed rr).1.traces.lookup cid =
      some (t ++ Wire.header yourIdMsg :: Wire.idPair cid :: extra) ∧
      countYourId extra = 0 := by
  have h0 : (appendTrace s cid [Wire.header yourIdMsg, Wire.idPair cid]).traces.lookup cid
      = some (t ++ [Wire.header yourIdMsg, Wire.idPair cid]) := by
    rw [appendTrace_lookup_self, ht]
    rfl
  cases rr with
  | ok r =>
    simp only [handleStep]
    set s0 := appendTrace s cid [Wire.header yourIdMsg, Wire.idPair cid] with hs0
    set m := r.decoded.getD noopMsg with hm
    set s1 := dispatchState s0 cid m nseed with hs1
    have h1 : s1.traces.lookup cid = some (t ++ [Wire.header yourIdMsg, Wire.idPair cid]) := by
      rw [hs1, dispatchState_traces]
      exact h0
    set resp := responseWires s1.files s1.csys m with hresp
    set s2 := appendTrace s1 cid resp with hs2
    have h2 : s2.traces.lookup cid =
        some ((t ++ [Wire.header yourIdMsg, Wire.idPair cid]) ++ resp) := by
      rw [hs2, appendTrace_lookup_self, h1]
      rfl
    refine ⟨resp ++ (if (s2.clients.lookup cid).isSome then [Wire.raw r] else []), ?_, ?_⟩
    · rw [broadcastRaw_lookup, h2]
      refine congrArg some ?_
      split <;> simp
    · rw [countYourId_append, countYourId_responseWires]
      split <;> rfl
  | closed =>
    refine ⟨[], ?_, rfl⟩
    simp only [handleStep, removeClient]
    exact h0
  | errEof =>
    refine ⟨[], ?_, rfl⟩
    simp only [handleStep, removeClient]
    exact h0
  | errOther =>
    refine ⟨[], ?_, rfl⟩
    simp only [handleStep, removeClient, setStrikes]
    split <;> exact h0

/-- Over a whole session, the bytes appended to the client's connection
contain exactly one identity header per executed iteration, and the first
iteration's identity pair opens the appended traffic. -/
theorem runSession_trace_self (cid nseed : Nat) :
    ∀ (evs : List ReadResult) (s : ServerState) (t : List Wire),
      s.traces.lookup cid = some t →
      ∃ rest, (runSession s cid nseed evs).1.traces.lookup cid = some (t ++ rest) ∧
        countYourId rest = (runSession s cid nseed evs).2 ∧
        (evs ≠ [] → ∃ rest2,
          rest = Wire.header yourIdMsg :: Wire.idPair cid :: rest2) := by
  intro evs
  induction evs with
  | nil =>
    intro s t ht
    refine ⟨[], ?_, rfl, ?_⟩
    · simpa [runSession] using ht
    · intro h
      exact absurd rfl h
  | cons rr rest ih =>
    intro s t ht
    obtain ⟨extra, hstep, hcount⟩ := handleStep_trace_self s cid nseed rr t ht
    by_cases hbrk : (handleStep s cid nseed rr).2 = true
    · refine ⟨Wire.header yourIdMsg :: Wire.idPair cid :: extra, ?_, ?_, ?_⟩
      · simp only [runSession, hbrk, if_true]
        exact hstep
      · simp only [runSession, hbrk, if_true]
        have : countYourId (Wire.header yourIdMsg :: Wire.idPair cid :: extra) =
            1 + countYourId extra := by
          simp [countYourId, List.filter_cons, yourIdMsg, Message.new]
          omega
        rw [this, hcount]
      · intro _
        exact ⟨extra, rfl⟩
    · have hbf : (handleStep s cid nseed rr).2 = false := by
        simpa using hbrk
      obtain ⟨rest2, hrun, hcount2, _⟩ := ih (handleStep s cid nseed rr).1
        (t ++ Wire.header yourIdMsg :: Wire.idPair cid :: extra) hstep
      refine ⟨Wire.header yourIdMsg :: Wire.idPair cid :: extra ++ rest2, ?_, ?_, ?_⟩
      · simp only [runSession, hbf, Bool.false_eq_true, if_false]
        rw [hrun]
        simp
      · simp only [runSession, hbf, Bool.false_eq_true, if_false]
        have : countYourId (Wire.header yourIdMsg :: Wire.idPair cid :: extra ++ rest2) =
            1 + countYourId extra + countYourId rest2 := by
          simp [countYourId, List.filter_cons, List.filter_append, yourIdMsg, Message.new]
          omega
        rw [this, hcount, hcount2]
        omega
      · intro _
        exact ⟨extra ++ rest2, by simp⟩

end Server

/-- Counterexample to claim C4 as stated: a session of two successful
reads receives two identity-assignment messages, not exactly one for the
lifetime of the session (the identity is rewritten at the top of every
loop iteration). -/
theorem single_identity_counterexample :
    (Server.runSession
      ⟨[(0, 0), (1, 0)], [(0, []), (1, [])], ⟨[], 0, 0⟩, [], [], false⟩ 0 0
      [Server.ReadResult.ok ⟨some (Server.Message.new
          Server.MessageType.PlayerUpdate 0 0 0 0 0)⟩,
       Server.ReadResult.ok ⟨some (Server.Message.new
          Server.MessageType.PlayerUpdate 0 0 0 0 0)⟩]).2 = 2 ∧
    Server.countYourId (Server.traceOf (Server.runSession
      ⟨[(0, 0), (1, 0)], [(0, []), (1, [])], ⟨[], 0, 0⟩, [], [], false⟩ 0 0
      [Server.ReadResult.ok ⟨some (Server.Message.new
          Server.MessageType.PlayerUpdate 0 0 0 0 0)⟩,
       Server.ReadResult.ok ⟨some (Server.Message.new
          Server.MessageType.PlayerUpdate 0 0 0 0 0)⟩]).1 0) = 2 := by
  decide

/-- Claim C4 (amended): on every iteration of its loop the per-client
handler sends exactly one identity-assignment message before anything
else it writes in that iteration; in particular the very first traffic
on a new connection (empty trace) is the YourId header followed by the
id pair, before any other traffic, and a session that executes n read
iterations receives n identity messages rather than exactly one. -/
theorem identity_first_but_resent (s : Server.ServerState) (cid nseed : Nat)
    (evs : List Server.ReadResult)
    (ht : s.traces.lookup cid = some []) :
    ∃ tr, (Server.runSession s cid nseed evs).1.traces.lookup cid = some tr ∧
      Server.countYourId tr = (Server.runSession s cid nseed evs).2 ∧
      (evs ≠ [] → ∃ rest,
        tr = Server.Wire.header Server.yourIdMsg :: Server.Wire.idPair cid :: rest) := by
  obtain ⟨rest, hrun, hcount, hhead⟩ :=
    Server.runSession_trace_self cid nseed evs s [] ht
  exact ⟨rest, by simpa using hrun, hcount, hhead⟩

/-- Witness for C4: a fresh single-client connection processing one
successful read. -/
theorem identity_first_but_resent_witness :
    (⟨[(0, 0)], [(0, [])], ⟨[], 0, 0⟩, [], [], false⟩ :
        Server.ServerState).traces.lookup 0 = some [] ∧
    (∃ tr, (Server.runSession
        ⟨[(0, 0)], [(0, [])], ⟨[], 0, 0⟩, [], [], false⟩ 0 0
        [Server.ReadResult.ok ⟨some (Server.Message.new
            Server.MessageType.PlayerUpdate 0 0 0 0 0)⟩]).1.traces.lookup 0 = some tr ∧
      Server.countYourId tr = (Server.runSession
        ⟨[(0, 0)], [(0, [])], ⟨[], 0, 0⟩, [], [], false⟩ 0 0
        [Server.ReadResult.ok ⟨some (Server.Message.new
            Server.MessageType.PlayerUpdate 0 0 0 0 0)⟩]).2 ∧
      ([Server.ReadResult.ok ⟨some (Server.Message.new
            Server.MessageType.PlayerUpdate 0 0 0 0 0)⟩] ≠
          ([] : List Server.ReadResult) → ∃ rest,
        tr = Server.Wire.header Server.yourIdMsg ::
          Server.Wire.idPair 0 :: rest)) :=
  ⟨by decide,
   identity_first_but_resent
     ⟨[(0, 0)], [(0, [])], ⟨[], 0, 0⟩, [], [], false⟩ 0 0
     [Server.ReadResult.ok ⟨some (Server.Message.new
         Server.MessageType.PlayerUpdate 0 0 0 0 0)⟩] (by decide)⟩

namespace Server

theorem handleStep_other_clients (s : ServerState) (cid nseed : Nat)
    (rr : ReadResult) (id : Nat) (h : id ≠ cid) :
    (handleStep s cid nseed rr).1.clients.lookup id = s.clients.lookup id := by
  cases rr with
  | ok r => rw [handleStep_ok_clients]
  | closed =>
    simp only [handleStep]
    rw [removeClient_lookup_other _ _ _ h]
    rfl
  | errEof =>
    simp only [handleStep]
    rw [removeClient_lookup_other _ _ _ h]
    rfl
  | errOther =>
    simp only [handleStep]
    split
    · rw [removeClient_lookup_other _ _ _ h]
      rw [setStrikes_lookup_other _ _ _ _ h]
      rfl
    · rw [setStrikes_lookup_other _ _ _ _ h]
      rfl

theorem runSession_other_clients (cid nseed : Nat) :
    ∀ (evs : List ReadResult) (s : ServerState) (id : Nat), id ≠ cid →
      (runSession s cid nseed evs).1.clients.lookup id = s.clients.lookup id := by
  intro evs
  induction evs with
  | nil => intro s id _; rfl
  | cons rr rest ih =>
    intro s id h
    by_cases hbrk : (handleStep s cid nseed rr).2 = true
    · simp only [runSession, hbrk, if_true]
      exact handleStep_other_clients s cid nseed rr id h
    · have hbf : (handleStep s cid nseed rr).2 = false := by simpa using hbrk
      simp only [runSession, hbf, Bool.false_eq_true, if_false]
      rw [ih (handleStep s cid nseed rr).1 id h]
      exact handleStep_other_clients s cid nseed rr id h

theorem errCount_cons_err (rest : List ReadResult) :
    errCount (ReadResult.errOther :: rest) = errCount rest + 1 := by
  simp [errCount, List.filter_cons]

theorem errCount_cons_ok (r : Recv) (rest : List ReadResult) :
    errCount (ReadResult.ok r :: rest) = errCount rest := by
  simp [errCount, List.filter_cons]

theorem hasClose_cons_ok (r : Recv) (rest : List ReadResult) :
    hasClose (ReadResult.ok r :: rest) = hasClose rest := by
  simp [hasClose]

theorem hasClose_cons_err (rest : List ReadResult) :
    hasClose (ReadResult.errOther :: rest) = hasClose rest := by
  simp [hasClose]

/-- Session membership after a run: the client survives exactly when no
clean close occurred and the cumulative fault counter never exceeded 4,
counting from its starting value k (the counter is never reset by a
successful read). -/
theorem runSession_membership (cid nseed : Nat) :
    ∀ (evs : List ReadResult) (s : ServerState) (k : Int),
      s.clients.lookup cid = some k → 0 ≤ k → k ≤ 4 →
      (((runSession s cid nseed evs).1.clients.lookup cid ≠ none) ↔
        (hasClose evs = false ∧ k + errCount evs ≤ 4)) := by
  intro evs
  induction evs with
  | nil =>
    intro s k hk _ hk4
    refine iff_of_true ?_ ⟨rfl, by simpa [errCount] using hk4⟩
    simp [runSession, hk]
  | cons rr rest ih =>
    intro s k hk hk0 hk4
    cases rr with
    | ok r =>
      have hbf : (handleStep s cid nseed (ReadResult.ok r)).2 = false := rfl
      simp only [runSession, hbf, Bool.false_eq_true, if_false]
      have hk' : (handleStep s cid nseed (ReadResult.ok r)).1.clients.lookup cid
          = some k := by
        rw [handleStep_ok_clients]
        exact hk
      rw [hasClose_cons_ok, errCount_cons_ok]
      exact ih (handleStep s cid nseed (ReadResult.ok r)).1 k hk' hk0 hk4
    | closed =>
      have hbt : (handleStep s cid nseed ReadResult.closed).2 = true := rfl
      simp only [runSession, hbt, if_true]
      refine iff_of_false ?_ ?_
      · simp only [handleStep]
        rw [removeClient_lookup_self]
        simp
      · intro hcl
        simp [hasClose] at hcl
    | errEof =>
      have hbt : (handleStep s cid nseed ReadResult.errEof).2 = true := rfl
      simp only [runSession, hbt, if_true]
      refine iff_of_false ?_ ?_
      · simp only [handleStep]
        rw [removeClient_lookup_self]
        simp
      · intro hcl
        simp [hasClose] at hcl
    | errOther =>
      have hs0c : (appendTrace s cid
          [Wire.header yourIdMsg, Wire.idPair cid]).clients = s.clients := rfl
      have hgetd : ((appendTrace s cid
          [Wire.header yourIdMsg, Wire.idPair cid]).clients.lookup cid).getD 0 + 1
          = k + 1 := by
        rw [hs0c, hk]
        rfl
      by_cases hge : k + 1 > 4
      · have hbt : (handleStep s cid nseed ReadResult.errOther).2 = true := by
          simp only [handleStep, hgetd]
          rw [if_pos hge]
        have hrm : (handleStep s cid nseed ReadResult.errOther).1.clients.lookup cid
            = none := by
          simp only [handleStep, hgetd]
          rw [if_pos hge]
          exact removeClient_lookup_self _ _
        simp only [runSession, hbt, if_true]
        refine iff_of_false ?_ ?_
        · rw [hrm]
          simp
        · intro hcl
          rw [errCount_cons_err] at hcl
          omega
      · have hble : ¬ (k + 1 > 4) := hge
        have hbt : (handleStep s cid nseed ReadResult.errOther).2 = false := by
          simp only [handleStep, hgetd]
          rw [if_neg hble]
        have hk' : (handleStep s cid nseed ReadResult.errOther).1.clients.lookup cid
            = some (k + 1) := by
          simp only [handleStep, hgetd]
          rw [if_neg hble]
          refine setStrikes_lookup_self _ _ _ ?_
          rw [hs0c, hk]
          rfl
        simp only [runSession, hbt, Bool.false_eq_true, if_false]
        rw [hasClose_cons_err, errCount_cons_err]
        have := ih (handleStep s cid nseed ReadResult.errOther).1 (k + 1) hk'
          (by omega) (by omega)
        rw [this]
        constructor
        · intro ⟨a, b⟩
          exact ⟨a, by omega⟩
        · intro ⟨a, b⟩
          exact ⟨a, by omega⟩

end Server

/-- Counterexample to claim C6 as stated: after the fault pattern
fault, success, fault, fault, fault, fault (only 4 consecutive faults,
so under 'a success resets the count' the client would survive), the
server removes the client: the counter is cumulative and never reset.
The other client's session is untouched. -/
theorem consecutive_fault_reset_counterexample :
    (Server.runSession
      ⟨[(0, 0), (1, 0)], [(0, []), (1, [])], ⟨[], 0, 0⟩, [], [], false⟩ 0 0
      [Server.ReadResult.errOther,
       Server.ReadResult.ok ⟨some (Server.Message.new
          Server.MessageType.PlayerUpdate 0 0 0 0 0)⟩,
       Server.ReadResult.errOther, Server.ReadResult.errOther,
       Server.ReadResult.errOther, Server.ReadResult.errOther]).1.clients.lookup 0
      = none ∧
    (Server.runSession
      ⟨[(0, 0), (1, 0)], [(0, []), (1, [])], ⟨[], 0, 0⟩, [], [], false⟩ 0 0
      [Server.ReadResult.errOther,
       Server.ReadResult.ok ⟨some (Server.Message.new
          Server.MessageType.PlayerUpdate 0 0 0 0 0)⟩,
       Server.ReadResult.errOther, Server.ReadResult.errOther,
       Server.ReadResult.errOther, Server.ReadResult.errOther]).1.clients.lookup 1
      = some 0 := by
  decide

/-- Claim C6 (amended): each non-clean (non-EOF) read failure increments
the client's fault counter, which is cumulative for the whole session (a
successful read does not reset it); the client is removed from the active
session set exactly when the total fault count exceeds 4 (the 5th fault
over the session removes it) or when its stream closes cleanly (empty
read or UnexpectedEof); removing one client leaves every other client's
session entry unchanged. -/
theorem fault_counter_cumulative (s : Server.ServerState) (cid nseed : Nat)
    (evs : List Server.ReadResult)
    (h0 : s.clients.lookup cid = some 0) :
    (((Server.runSession s cid nseed evs).1.clients.lookup cid ≠ none) ↔
      (Server.hasClose evs = false ∧ (Server.errCount evs : Int) ≤ 4)) ∧
    (∀ id, id ≠ cid →
      (Server.runSession s cid nseed evs).1.clients.lookup id =
        s.clients.lookup id) := by
  constructor
  · have h := Server.runSession_membership cid nseed evs s 0 h0 (by norm_num)
      (by norm_num)
    simpa using h
  · intro id h
    exact Server.runSession_other_clients cid nseed evs s id h

/-- Witness for C6: a two-client server where client 0 takes two faults
separated by a success and survives (cumulative count 2), client 1
untouched. -/
theorem fault_counter_cumulative_witness :
    (⟨[(0, 0), (1, 0)], [(0, []), (1, [])], ⟨[], 0, 0⟩, [], [], false⟩ :
        Server.ServerState).clients.lookup 0 = some 0 ∧
    ((((Server.runSession
        ⟨[(0, 0), (1, 0)], [(0, []), (1, [])], ⟨[], 0, 0⟩, [], [], false⟩ 0 0
        [Server.ReadResult.errOther,
         Server.ReadResult.ok ⟨some (Server.Message.new
            Server.MessageType.PlayerUpdate 0 0 0 0 0)⟩,
         Server.ReadResult.errOther]).1.clients.lookup 0 ≠ none) ↔
      (Server.hasClose
        [Server.ReadResult.errOther,
         Server.ReadResult.ok ⟨some (Server.Message.new
            Server.MessageType.PlayerUpdate 0 0 0 0 0)⟩,
         Server.ReadResult.errOther] = false ∧
       (Server.errCount
        [Server.ReadResult.errOther,
         Server.ReadResult.ok ⟨some (Server.Message.new
            Server.MessageType.PlayerUpdate 0 0 0 0 0)⟩,
         Server.ReadResult.errOther] : Int) ≤ 4)) ∧
     (∀ id, id ≠ 0 →
      (Server.runSession
        ⟨[(0, 0), (1, 0)], [(0, []), (1, [])], ⟨[], 0, 0⟩, [], [], false⟩ 0 0
        [Server.ReadResult.errOther,
         Server.ReadResult.ok ⟨some (Server.Message.new
            Server.MessageType.PlayerUpdate 0 0 0 0 0)⟩,
         Server.ReadResult.errOther]).1.clients.lookup id =
       (⟨[(0, 0), (1, 0)], [(0, []), (1, [])], ⟨[], 0, 0⟩, [], [], false⟩ :
          Server.ServerState).clients.lookup id)) :=
  ⟨by decide,
   fault_counter_cumulative
     ⟨[(0, 0), (1, 0)], [(0, []), (1, [])], ⟨[], 0, 0⟩, [], [], false⟩ 0 0
     [Server.ReadResult.errOther,
      Server.ReadResult.ok ⟨some (Server.Message.new
         Server.MessageType.PlayerUpdate 0 0 0 0 0)⟩,
      Server.ReadResult.errOther] (by decide)⟩

namespace Server

/-- What claim C5 asserts about redistribution: on a decoded non-request
message, every other active client's connection receives exactly the
received bytes, and the sender receives them too, after its
per-iteration identity pair (non-request messages write no response
wires). -/
def EchoSpec (s : ServerState) (cid nseed : Nat) (r : Recv) : Prop :=
  (∀ id t, id ≠ cid → (s.clients.lookup id).isSome = true →
     s.traces.lookup id = some t →
     (handleStep s cid nseed (ReadResult.ok r)).1.traces.lookup id =
       some (t ++ [Wire.raw r])) ∧
  (∀ t, (s.clients.lookup cid).isSome = true →
     s.traces.lookup cid = some t →
     (handleStep s cid nseed (ReadResult.ok r)).1.traces.lookup cid =
       some (t ++ [Wire.header yourIdMsg, Wire.idPair cid, Wire.raw r]))

/-- What claim C5 asserts about a block mutation: the change is applied
to the authoritative chunk system in the same step that relays it (the
override lookup and the override-aware block lookup return the new id)
and the override store is rewritten on disk for the current seed. -/
def BlockSetSpec (s : ServerState) (cid nseed : Nat) (r : Recv) (m : Message) :
    Prop :=
  (handleStep s cid nseed (ReadResult.ok r)).1.csys.overrides.lookup
      (⟨truncToInt m.x, truncToInt m.y, truncToInt m.z⟩ : IVec3) = some m.info ∧
  (∀ env : MeshEnv, SrvChunkSystem.lookup_block env
      (handleStep s cid nseed (ReadResult.ok r)).1.csys
      ⟨truncToInt m.x, truncToInt m.y, truncToInt m.z⟩ = m.info) ∧
  (handleStep s cid nseed (ReadResult.ok r)).1.files.lookup s.csys.currentseed =
    some ⟨(handleStep s cid nseed (ReadResult.ok r)).1.csys.overrides,
      s.csys.currentseed, s.csys.planet_type⟩

theorem appendTrace_clients (s : ServerState) (cid : Nat) (ws : List Wire) :
    (appendTrace s cid ws).clients = s.clients := rfl

theorem appendTrace_csys (s : ServerState) (cid : Nat) (ws : List Wire) :
    (appendTrace s cid ws).csys = s.csys := rfl

theorem broadcastRaw_csys (s : ServerState) (r : Recv) :
    (broadcastRaw s r).csys = s.csys := rfl

theorem appendTrace_files (s : ServerState) (cid : Nat) (ws : List Wire) :
    (appendTrace s cid ws).files = s.files := rfl

theorem broadcastRaw_files (s : ServerState) (r : Recv) :
    (broadcastRaw s r).files = s.files := rfl

end Server

/-- Claim C5: for every decoded non-request message received from a
client, the server echoes the exact received bytes to every other
connected client and back to the sender; for a block mutation
specifically, before relaying, the change is applied to the
authoritative chunk system (a subsequent lookup at the coordinate
returns the new id) and the override store is written to disk. -/
theorem nonrequest_echo_blockset_authoritative (s : Server.ServerState)
    (cid nseed : Nat) (r : Server.Recv) (m : Server.Message)
    (hdec : r.decoded = some m) :
    (Server.requestType m.message_type = false →
      Server.EchoSpec s cid nseed r) ∧
    (m.message_type = Server.MessageType.BlockSet →
      Server.BlockSetSpec s cid nseed r m) := by
  constructor
  · intro hreq
    constructor
    · intro id t hid hact ht
      simp only [Server.handleStep, hdec, Option.getD_some]
      set s0 := Server.appendTrace s cid
        [Server.Wire.header Server.yourIdMsg, Server.Wire.idPair cid] with hs0
      set s1 := Server.dispatchState s0 cid m nseed with hs1
      set s2 := Server.appendTrace s1 cid
        (Server.responseWires s1.files s1.csys m) with hs2
      have e2 : s2.traces.lookup id = some t := by
        rw [hs2, Server.appendTrace_lookup_other _ _ _ _ hid, hs1,
          Server.dispatchState_traces, hs0,
          Server.appendTrace_lookup_other _ _ _ _ hid]
        exact ht
      have ecl : s2.clients = s.clients := by
        rw [hs2, Server.appendTrace_clients, hs1, Server.dispatchState_clients,
          hs0, Server.appendTrace_clients]
      rw [Server.broadcastRaw_lookup, e2, ecl, hact]
      rfl
    · intro t hact ht
      simp only [Server.handleStep, hdec, Option.getD_some]
      set s0 := Server.appendTrace s cid
        [Server.Wire.header Server.yourIdMsg, Server.Wire.idPair cid] with hs0
      set s1 := Server.dispatchState s0 cid m nseed with hs1
      have hresp : Server.responseWires s1.files s1.csys m = [] :=
        Server.responseWires_nonrequest _ _ m hreq
      set s2 := Server.appendTrace s1 cid
        (Server.responseWires s1.files s1.csys m) with hs2
      have e2 : s2.traces.lookup cid =
          some (t ++ [Server.Wire.header Server.yourIdMsg, Server.Wire.idPair cid]) := by
        rw [hs2, hresp, Server.appendTrace_lookup_self, hs1,
          Server.dispatchState_traces, hs0, Server.appendTrace_lookup_self, ht]
        simp
      have ecl : s2.clients = s.clients := by
        rw [hs2, Server.appendTrace_clients, hs1, Server.dispatchState_clients,
          hs0, Server.appendTrace_clients]
      rw [Server.broadcastRaw_lookup, e2, ecl, hact]
      simp
  · intro hbs
    refine ⟨?_, ?_, ?_⟩
    · simp only [Server.handleStep, hdec, Option.getD_some, Server.broadcastRaw_csys,
        Server.appendTrace_csys, Server.dispatchState, hbs, Server.SrvChunkSystem.set_block]
      simp [List.lookup]
    · intro env
      simp only [Server.handleStep, hdec, Option.getD_some, Server.broadcastRaw_csys,
        Server.appendTrace_csys, Server.dispatchState, hbs,
        Server.SrvChunkSystem.lookup_block, Server.SrvChunkSystem.set_block]
      simp [List.lookup]
    · simp only [Server.handleStep, hdec, Option.getD_some, Server.broadcastRaw_csys,
        Server.broadcastRaw_files, Server.appendTrace_csys, Server.appendTrace_files,
        Server.dispatchState, hbs, Server.SrvChunkSystem.set_block]
      simp [List.lookup]

/-- Witness for C5 at the spec's scenario: a block mutation for
coordinate (1,2,3) with id 5 from client 0 on a two-client server. -/
theorem nonrequest_echo_blockset_authoritative_witness :
    (⟨some (Server.Message.new Server.MessageType.BlockSet 1 2 3 0 5)⟩ :
        Server.Recv).decoded =
      some (Server.Message.new Server.MessageType.BlockSet 1 2 3 0 5) ∧
    ((Server.requestType (Server.Message.new Server.MessageType.BlockSet
        1 2 3 0 5).message_type = false →
      Server.EchoSpec
        ⟨[(0, 0), (1, 0)], [(0, []), (1, [])], ⟨[], 7, 0⟩, [], [], false⟩ 0 0
        ⟨some (Server.Message.new Server.MessageType.BlockSet 1 2 3 0 5)⟩) ∧
     ((Server.Message.new Server.MessageType.BlockSet 1 2 3 0 5).message_type =
        Server.MessageType.BlockSet →
      Server.BlockSetSpec
        ⟨[(0, 0), (1, 0)], [(0, []), (1, [])], ⟨[], 7, 0⟩, [], [], false⟩ 0 0
        ⟨some (Server.Message.new Server.MessageType.BlockSet 1 2 3 0 5)⟩
        (Server.Message.new Server.MessageType.BlockSet 1 2 3 0 5))) :=
  ⟨rfl,
   nonrequest_echo_blockset_authoritative
     ⟨[(0, 0), (1, 0)], [(0, []), (1, [])], ⟨[], 7, 0⟩, [], [], false⟩ 0 0
     ⟨some (Server.Message.new Server.MessageType.BlockSet 1 2 3 0 5)⟩
     (Server.Message.new Server.MessageType.BlockSet 1 2 3 0 5) rfl⟩
